import Mathlib

/-!
Verification of the BidiTrieContainer implementation in src/js/strie.js.

The backing buffer is modelled as a total function from byte positions to
byte values together with an explicit size; positions at or beyond the size
always hold 0 and writes outside the buffer are dropped, mirroring the
behaviour of JavaScript typed arrays.  The 32-bit view buf32 is modelled by
little-endian composition of four bytes.  Byte reads return an Option so
that an out-of-range read is observably distinct from any byte value, the
way an out-of-range typed-array read yields undefined.  Natural-number
subtraction is truncated; at every place it is used the source guarantees
the operands are ordered, which the theorems record as hypotheses where
needed.  Loops of the source are modelled with an explicit fuel argument;
a result of none means the fuel was exhausted.
-/

set_option autoImplicit false
set_option maxRecDepth 8000

namespace STrie

def PAGE_SIZE : Nat := 65536 * 2
def HAYSTACK_START : Nat := 0
def HAYSTACK_SIZE : Nat := 2048
def HAYSTACK_SIZE_SLOT : Nat := HAYSTACK_SIZE / 4
def TRIE0_SLOT : Nat := HAYSTACK_SIZE_SLOT + 1
def TRIE1_SLOT : Nat := HAYSTACK_SIZE_SLOT + 2
def CHAR0_SLOT : Nat := HAYSTACK_SIZE_SLOT + 3
def CHAR1_SLOT : Nat := HAYSTACK_SIZE_SLOT + 4
def TRIE0_START : Nat := (HAYSTACK_SIZE_SLOT + 5) * 4

def CELL_BYTE_LENGTH : Nat := 12
def MIN_FREE_CELL_BYTE_LENGTH : Nat := CELL_BYTE_LENGTH * 8

def CELL_AND : Nat := 0
def CELL_OR : Nat := 1
def SEGMENT_INFO : Nat := 2
def BCELL_NEXT_AND : Nat := 0
def BCELL_ALT_AND : Nat := 1
def BCELL_EXTRA : Nat := 2
def BCELL_EXTRA_MAX : Nat := 0x00FFFFFF

/-- toSegmentInfo from the source: ((r - l) << 24) | (aL + l), as a 32-bit word. -/
def toSegmentInfo (aL l r : Nat) : Nat := (((r - l) <<< 24) ||| (aL + l)) % 2 ^ 32

/-- roundToPageSize from the source: (v + PAGE_SIZE-1) with the low page bits cleared. -/
def roundToPageSize (v : Nat) : Nat := (v + PAGE_SIZE - 1) / PAGE_SIZE * PAGE_SIZE

/-- The container state: backing buffer (byte contents and size), the
haystackLen instance field, and the extraHandler callback.  The side-channel
outputs are returned by the matching functions rather than stored. -/
structure Cont where
  size : Nat
  mem : Nat → Nat
  haystackLen : Nat
  extraHandler : Int → Nat → Nat → Int

/-- A byte read buf8[p]; out-of-range reads yield none (undefined in JS). -/
def read8 (st : Cont) (p : Int) : Option Nat :=
  if 0 ≤ p ∧ p < (st.size : Int) then some (st.mem p.toNat) else none

/-- A byte write buf8[p] = v; out-of-range writes are dropped, stored values
are bytes. -/
def write8 (st : Cont) (p v : Nat) : Cont :=
  { st with mem := fun q => if q = p ∧ p < st.size then v % 256 else st.mem q }

/-- A 32-bit read buf32[i] (little-endian composition of four bytes). -/
def read32 (st : Cont) (i : Nat) : Nat :=
  st.mem (4 * i) + 2 ^ 8 * st.mem (4 * i + 1) +
    2 ^ 16 * st.mem (4 * i + 2) + 2 ^ 24 * st.mem (4 * i + 3)

/-- A 32-bit write buf32[i] = v (little-endian decomposition into bytes);
out-of-range writes are dropped. -/
def write32 (st : Cont) (i v : Nat) : Cont :=
  { st with mem := fun q =>
      if (4 * i ≤ q ∧ q < 4 * i + 4) ∧ 4 * i + 3 < st.size then
        v / 2 ^ (8 * ((q - 4 * i) % 4)) % 256
      else st.mem q }

/-- Writes a list of bytes at consecutive positions starting at p. -/
def writeBytes (st : Cont) (p : Nat) : List Nat → Cont
  | [] => st
  | c :: cs => writeBytes (write8 st p c) (p + 1) cs

/-- The constructor.  byteLength and char0 are the detail options, with 0
standing for an absent option (both are used through JavaScript truthiness
in the source). -/
def init (byteLength char0 : Nat) (extraHandler : Int → Nat → Nat → Int) : Cont :=
  let len := roundToPageSize byteLength
  let minInitialSize := PAGE_SIZE * 4
  let st : Cont :=
    { size := max len minInitialSize
      mem := fun _ => 0
      haystackLen := 0
      extraHandler := extraHandler }
  let st := write32 st TRIE0_SLOT TRIE0_START
  let st := write32 st TRIE1_SLOT (read32 st TRIE0_SLOT)
  let st := write32 st CHAR0_SLOT (if char0 = 0 then minInitialSize / 2 else char0)
  write32 st CHAR1_SLOT (read32 st CHAR0_SLOT)

/-- reset() from the source. -/
def reset (st : Cont) : Cont :=
  let st := write32 st TRIE1_SLOT (read32 st TRIE0_SLOT)
  write32 st CHAR1_SLOT (read32 st CHAR0_SLOT)

/-- allocateCell() from the source: bumps trie1 by 12 bytes, zeroes the three
words of the new cell, returns its word index. -/
def allocateCell (st : Cont) : Nat × Cont :=
  let icellB := read32 st TRIE1_SLOT
  let st := write32 st TRIE1_SLOT (icellB + CELL_BYTE_LENGTH)
  let icell := icellB / 4
  let st := write32 st (icell + 0) 0
  let st := write32 st (icell + 1) 0
  let st := write32 st (icell + 2) 0
  (icell, st)

/-- addCell(iand, ior, v) from the source. -/
def addCell (st : Cont) (iand ior v : Nat) : Nat × Cont :=
  let icellstP := allocateCell st
  let icell := icellstP.1
  let st := icellstP.2
  let st := write32 st (icell + CELL_AND) iand
  let st := write32 st (icell + CELL_OR) ior
  let st := write32 st (icell + SEGMENT_INFO) v
  (icell, st)

/-- The buffer-reallocation step of resizeBuf: a fresh zeroed buffer of
bufLen bytes receives the trie region verbatim and the character region at
its new offset, then the char0/char1 slots are rewritten. -/
def reallocBuf (st : Cont) (bufLen char0 charDataLen : Nat) : Cont :=
  write32 (write32
    { st with
      size := bufLen
      mem := fun p =>
        if p < bufLen then
          if p < read32 st TRIE1_SLOT ∧ p < st.size then st.mem p
          else if char0 ≤ p ∧ p < char0 + charDataLen then
            st.mem (read32 st CHAR0_SLOT + (p - char0))
          else 0
        else 0 }
    CHAR0_SLOT char0) CHAR1_SLOT (char0 + charDataLen)

/-- The in-place character-region shift of resizeBuf (buf8.copyWithin with
memmove semantics) followed by the char0/char1 slot rewrites; skipped when
char0 is already in place. -/
def copyWithinChars (st1 : Cont) (char0 char1new : Nat) : Cont :=
  if char0 = read32 st1 CHAR0_SLOT then st1
  else
    write32 (write32
      { st1 with
        mem := fun p =>
          if char0 ≤ p ∧ p < char0 + (read32 st1 CHAR1_SLOT - read32 st1 CHAR0_SLOT) ∧
              p < st1.size then
            st1.mem (read32 st1 CHAR0_SLOT + (p - char0))
          else st1.mem p }
      CHAR0_SLOT char0) CHAR1_SLOT char1new

/-- resizeBuf(bufLen, char0) from the source (the non-wasm path). -/
def resizeBuf (st0 : Cont) (bufLen0 char0 : Nat) : Cont :=
  if roundToPageSize bufLen0 = st0.size ∧ char0 = read32 st0 CHAR0_SLOT then st0
  else
    copyWithinChars
      (if roundToPageSize bufLen0 = st0.size then st0
       else reallocBuf st0 (roundToPageSize bufLen0) char0
         (read32 st0 CHAR1_SLOT - read32 st0 CHAR0_SLOT))
      char0 (char0 + (read32 st0 CHAR1_SLOT - read32 st0 CHAR0_SLOT))

/-- growBuf(trieGrow, charGrow) from the source. -/
def growBuf (st : Cont) (trieGrow charGrow : Nat) : Cont :=
  let char0 := max (roundToPageSize (read32 st TRIE1_SLOT + trieGrow)) (read32 st CHAR0_SLOT)
  let char1 := char0 + read32 st CHAR1_SLOT - read32 st CHAR0_SLOT
  let bufLen := max (roundToPageSize (char1 + charGrow)) st.size
  resizeBuf st bufLen char0

/-- storeString(s) from the source, over byte lists: appends the character
codes to the character region and returns the offset relative to char0. -/
def storeString (st : Cont) (s : List Nat) : Nat × Cont :=
  let n := s.length
  let st := if st.size - read32 st CHAR1_SLOT < n then growBuf st 0 n else st
  let offset := read32 st CHAR1_SLOT
  let st := write32 st CHAR1_SLOT (offset + n)
  let st := writeBytes st offset s
  (offset - read32 st CHAR0_SLOT, st)

/-- createOne() from the source (the fresh-root path): allocates a root cell
from the trie region and zeroes its three words. -/
def createOne (st : Cont) : Nat × Cont :=
  let st :=
    if read32 st CHAR0_SLOT - read32 st TRIE1_SLOT < CELL_BYTE_LENGTH then
      growBuf st CELL_BYTE_LENGTH 0
    else st
  let iroot := read32 st TRIE1_SLOT / 4
  let st := write32 st TRIE1_SLOT (read32 st TRIE1_SLOT + CELL_BYTE_LENGTH)
  let st := write32 st (iroot + CELL_OR) 0
  let st := write32 st (iroot + CELL_AND) 0
  let st := write32 st (iroot + SEGMENT_INFO) 0
  (iroot, st)

/-- STrieRef.setExtra(iboundary, v) from the source. -/
def setExtra (st : Cont) (iboundary v : Nat) : Cont :=
  write32 st (iboundary + BCELL_EXTRA) v

/-- The haystack handoff described by the spec: the caller writes its input
into the haystack window at the start of the buffer and sets the
haystackLen field. -/
def setHaystack (st : Cont) (s : List Nat) : Cont :=
  { writeBytes st HAYSTACK_START s with haystackLen := s.length }

/-- A successful match result: the side-channel values l, r, iu set by the
matching functions. -/
abbrev MRes := Int × Nat × Int

/-- The inner first-character loop of matchesLeft: walks the OR chain until a
cell whose segment ends with byte c; yields the cell together with its
segment word and n. -/
def matchesLeftFind (st : Cont) (char0 : Nat) (c : Option Nat) :
    Nat → Nat → Option (Option (Nat × Nat × Nat))
  | 0, _ => none
  | fuel + 1, icell =>
    let v := read32 st (icell + SEGMENT_INFO)
    let n := v >>> 24 - 1
    let br := char0 + (v &&& 0x00FFFFFF) + n
    if read8 st (br : Int) = c then some (some (icell, v, n))
    else
      let icell2 := read32 st (icell + CELL_OR)
      if icell2 = 0 then some none else matchesLeftFind st char0 c fuel icell2

/-- The backward byte-compare loop of matchesLeft: compares n byte pairs at
positions i-1, j-1 downward. -/
def cmpBack (st : Cont) : Nat → Int → Int → Bool
  | 0, _, _ => true
  | n + 1, i, j =>
    decide (read8 st (i - 1) = read8 st (j - 1)) && cmpBack st n (i - 1) (j - 1)

/-- The boundary-cell step shared by the exits of one matchesLeft loop
iteration: moves to the AND child of the matched cell and either accepts,
fails, or continues the walk through the given recursion. -/
def matchesLeftStep (st : Cont) (r : Nat) (recur : Nat → Int → Option (Option MRes))
    (icellF : Nat) (ar2 : Int) : Option (Option MRes) :=
  let icell1 := read32 st (icellF + CELL_AND)
  let ix := read32 st (icell1 + BCELL_EXTRA)
  if ix ≤ BCELL_EXTRA_MAX then
    let acc : Option MRes :=
      if ix ≠ 0 then
        let iu := if ix = 1 then (-1 : Int) else st.extraHandler ar2 r ix
        if iu ≠ 0 then some (ar2, r, iu) else none
      else none
    match acc with
    | some res => some (some res)
    | none =>
      let inextN := read32 st (icell1 + BCELL_NEXT_AND)
      if inextN = 0 then some none
      else if ar2 = 0 then some none
      else recur inextN ar2
  else
    if ar2 = 0 then some none
    else recur icell1 ar2

/-- The main loop of matchesLeft(iroot, i, r); the cursor ar is an integer
because the source decrements it before the bounds test, so it reaches -1
when the walk starts at haystack position 0. -/
def matchesLeftGo (st : Cont) (char0 r : Nat) : Nat → Nat → Int → Option (Option MRes)
  | 0, _, _ => none
  | fuel + 1, icell0, ar0 =>
    let ar1 : Int := ar0 - 1
    let c := read8 st ar1
    match matchesLeftFind st char0 c (fuel + 1) icell0 with
    | none => none
    | some none => some none
    | some (some (icellF, v, n)) =>
      let br : Int := (char0 + (v &&& 0x00FFFFFF) + n : Nat)
      if n ≠ 0 then
        let al : Int := ar1 - n
        if al < 0 then some none
        else if cmpBack st n ar1 br then
          matchesLeftStep st r (matchesLeftGo st char0 r fuel) icellF al
        else some none
      else matchesLeftStep st r (matchesLeftGo st char0 r fuel) icellF ar1

/-- The inner first-character loop of matches: walks the OR chain until a
cell whose segment starts with byte c. -/
def matchesFind (st : Cont) (char0 : Nat) (c : Option Nat) :
    Nat → Nat → Option (Option (Nat × Nat))
  | 0, _ => none
  | fuel + 1, icell =>
    let v := read32 st (icell + SEGMENT_INFO)
    let bl := char0 + (v &&& 0x00FFFFFF)
    if read8 st (bl : Int) = c then some (some (icell, v))
    else
      let icell2 := read32 st (icell + CELL_OR)
      if icell2 = 0 then some none else matchesFind st char0 c fuel icell2

/-- The forward byte-compare loop of matches: compares n byte pairs at
positions i, j upward. -/
def cmpFwd (st : Cont) : Nat → Nat → Nat → Bool
  | 0, _, _ => true
  | n + 1, i, j =>
    decide (read8 st (i : Int) = read8 st (j : Int)) && cmpFwd st n (i + 1) (j + 1)

/-- The boundary-cell step shared by the exits of one matches loop
iteration: moves to the AND child of the matched cell and either accepts,
recurses into the left-side trie, fails, or continues through the given
recursion. -/
def matchesStep (st : Cont) (char0 i fuel aR : Nat)
    (recur : Nat → Nat → Option (Option MRes)) (icellF al1 : Nat) :
    Option (Option MRes) :=
  let icell1 := read32 st (icellF + CELL_AND)
  let ix := read32 st (icell1 + BCELL_EXTRA)
  if ix ≤ BCELL_EXTRA_MAX then
    let acc : Option MRes :=
      if ix ≠ 0 then
        let iu := if ix = 1 then (-1 : Int) else st.extraHandler (i : Int) al1 ix
        if iu ≠ 0 then some ((i : Int), al1, iu) else none
      else none
    match acc with
    | some res => some (some res)
    | none =>
      let inextA := read32 st (icell1 + BCELL_ALT_AND)
      let leftRes : Option (Option MRes) :=
        if inextA ≠ 0 then matchesLeftGo st char0 al1 (fuel + 1) inextA (i : Int)
        else some none
      match leftRes with
      | none => none
      | some (some res) => some (some res)
      | some none =>
        let inextN := read32 st (icell1 + BCELL_NEXT_AND)
        if inextN = 0 then some none
        else if al1 = aR then some none
        else recur inextN al1
  else
    if al1 = aR then some none
    else recur icell1 al1

/-- The main loop of matches(iroot, i). -/
def matchesGo (st : Cont) (char0 aR i : Nat) : Nat → Nat → Nat → Option (Option MRes)
  | 0, _, _ => none
  | fuel + 1, icell0, al0 =>
    let c := read8 st (al0 : Int)
    let al := al0 + 1
    match matchesFind st char0 c (fuel + 1) icell0 with
    | none => none
    | some none => some none
    | some (some (icellF, v)) =>
      let bl := char0 + (v &&& 0x00FFFFFF)
      let n := v >>> 24 - 1
      if n ≠ 0 then
        let ar := al + n
        if ar > aR then some none
        else if cmpFwd st n al (bl + 1) then
          matchesStep st char0 i fuel aR (matchesGo st char0 aR i fuel) icellF ar
        else some none
      else matchesStep st char0 i fuel aR (matchesGo st char0 aR i fuel) icellF al

/-- matches(iroot, i) from the source; a some (some res) result is a true
return with side-channel values res, some none is a false return, none means
the fuel ran out.  The source name matches is a reserved word in Lean, hence
the Fn suffix. -/
def matchesFn (st : Cont) (fuel iroot i : Nat) : Option (Option MRes) :=
  matchesGo st (read32 st CHAR0_SLOT) st.haystackLen i fuel iroot i

/-- matchesLeft(iroot, i, r) from the source, packaged like matches. -/
def matchesLeft (st : Cont) (fuel iroot i r : Nat) : Option (Option MRes) :=
  matchesLeftGo st (read32 st CHAR0_SLOT) r fuel iroot (i : Int)

/-- The mismatch scan of addLeft: decrements br and ar while bytes keep
matching; k is the remaining segment length br - bL. -/
def scanBack (st : Cont) (aL : Nat) : Nat → Nat → Nat → Nat × Nat
  | 0, br, ar => (br, ar)
  | k + 1, br, ar =>
    if ar = 0 then (br, ar)
    else if read8 st ((br : Int) - 1) ≠ read8 st ((aL + ar : Int) - 1) then (br, ar)
    else scanBack st aL k (br - 1) (ar - 1)

/-- The descent loop of addLeft, over the left-side trie. -/
def addLeftGo (aL0 aL char0 : Nat) : Nat → Cont → Nat → Nat → Option (Nat × Cont)
  | 0, _, _, _ => none
  | fuel + 1, st, icell, ar =>
    let binfo := read32 st (icell + SEGMENT_INFO)
    if binfo ≤ BCELL_EXTRA_MAX then
      -- skip boundary cells
      let inext := read32 st (icell + CELL_AND)
      if inext ≠ 0 then addLeftGo aL0 aL char0 fuel st inext ar
      else
        let iboundarystP := allocateCell st
        let iboundary := iboundarystP.1
        let st := iboundarystP.2
        let ic2stP := addCell st iboundary 0 (toSegmentInfo aL0 0 ar)
        let ic2 := ic2stP.1
        let st := ic2stP.2
        let st := write32 st (icell + CELL_AND) ic2
        some (iboundary, st)
    else
      let bL := char0 + (binfo &&& 0x00FFFFFF)
      let bR := bL + (binfo >>> 24)
      if read8 st ((bR : Int) - 1) ≠ read8 st ((aL + ar : Int) - 1) then
        let inext := read32 st (icell + CELL_OR)
        if inext = 0 then
          let iboundarystP := allocateCell st
          let iboundary := iboundarystP.1
          let st := iboundarystP.2
          let inext2stP := addCell st iboundary 0 (toSegmentInfo aL0 0 ar)
          let inext2 := inext2stP.1
          let st := inext2stP.2
          let st := write32 st (icell + CELL_OR) inext2
          some (iboundary, st)
        else addLeftGo aL0 aL char0 fuel st inext ar
      else
        let brar2P := scanBack st aL (bR - 1 - bL) (bR - 1) (ar - 1)
        let br := brar2P.1
        let ar2 := brar2P.2
        if br = bL then
          -- all segment characters matched
          let inext := read32 st (icell + CELL_AND)
          if ar2 = 0 then
            if read32 st (inext + BCELL_EXTRA) ≤ BCELL_EXTRA_MAX then some (inext, st)
            else
              let iboundarystP := allocateCell st
              let iboundary := iboundarystP.1
              let st := iboundarystP.2
              let st := write32 st (iboundary + CELL_AND) inext
              let st := write32 st (icell + CELL_AND) iboundary
              some (iboundary, st)
          else
            if inext ≠ 0 then addLeftGo aL0 aL char0 fuel st inext ar2
            else
              -- the fallback the source labels as unreachable
              let inext2stP := addCell st 0 0 0
              let inext2 := inext2stP.1
              let st := inext2stP.2
              let st := write32 st (icell + CELL_AND) inext2
              let ic3stP := addCell st 0 0 (toSegmentInfo aL0 0 ar2)
              let ic3 := ic3stP.1
              let st := ic3stP.2
              let st := write32 st (inext2 + CELL_AND) ic3
              addLeftGo aL0 aL char0 fuel st icell ar2
        else
          -- split the current cell
          let st := write32 st (icell + SEGMENT_INFO) ((((bR - br) <<< 24) ||| (br - char0)) % 2 ^ 32)
          let inextstP := addCell st (read32 st (icell + CELL_AND)) 0 ((((br - bL) <<< 24) ||| (bL - char0)) % 2 ^ 32)
          let inext := inextstP.1
          let st := inextstP.2
          if ar2 = 0 then
            let iboundarystP := allocateCell st
            let iboundary := iboundarystP.1
            let st := iboundarystP.2
            let st := write32 st (icell + CELL_AND) iboundary
            let st := write32 st (iboundary + CELL_AND) inext
            some (iboundary, st)
          else
            let st := write32 st (icell + CELL_AND) inext
            let iboundarystP := allocateCell st
            let iboundary := iboundarystP.1
            let st := iboundarystP.2
            let ic4stP := addCell st iboundary 0 (toSegmentInfo aL0 0 ar2)
            let ic4 := ic4stP.1
            let st := ic4stP.2
            let st := write32 st (inext + CELL_OR) ic4
            some (iboundary, st)

/-- addLeft(icell, aL0, pivot) from the source: ensures a boundary cell on
the AND link of icell and, for a nonzero pivot, inserts the left part into
the left-side trie below it. -/
def addLeft (st0 : Cont) (fuel icell aL0 pivot : Nat) : Option (Nat × Cont) :=
  let char0 := read32 st0 CHAR0_SLOT
  let aL := aL0 + char0
  let ib0 := read32 st0 (icell + CELL_AND)
  let needNew := ib0 = 0 ∨ read32 st0 (ib0 + SEGMENT_INFO) > BCELL_EXTRA_MAX
  let iboundaryst1P :=
    if needNew then
      let ibstP := allocateCell st0
      let ib := ibstP.1
      let st := ibstP.2
      let st := write32 st (icell + CELL_AND) ib
      let st := write32 st (ib + BCELL_NEXT_AND) ib0
      (ib, st)
    else (ib0, st0)
  let iboundary := iboundaryst1P.1
  let st1 := iboundaryst1P.2
  if needNew ∧ pivot = 0 then some (iboundary, st1)
  else if read32 st1 (iboundary + BCELL_EXTRA) = 1 then some (iboundary, st1)
  else if pivot = 0 then some (iboundary, st1)
  else
    let ic0 := read32 st1 (iboundary + BCELL_ALT_AND)
    let icellLst2P :=
      if ic0 = 0 then
        let icstP := allocateCell st1
        let ic := icstP.1
        let st := icstP.2
        let st := write32 st (iboundary + BCELL_ALT_AND) ic
        (ic, st)
      else (ic0, st1)
    let icellL := icellLst2P.1
    let st2 := icellLst2P.2
    if read32 st2 (icellL + SEGMENT_INFO) = 0 then
      let st := write32 st2 (icellL + SEGMENT_INFO) (toSegmentInfo aL0 0 pivot)
      let ib2stP := allocateCell st
      let ib2 := ib2stP.1
      let st := ib2stP.2
      let st := write32 st (icellL + CELL_AND) ib2
      some (ib2, st)
    else
      addLeftGo aL0 aL char0 fuel st2 icellL pivot

/-- The mismatch scan of add: advances bi and al while bytes keep matching;
k is the remaining segment length bR - bi. -/
def scanFwd (st : Cont) (aL aR bl : Nat) : Nat → Nat → Nat → Nat × Nat
  | 0, bi, al => (bi, al)
  | k + 1, bi, al =>
    if al = aR then (bi, al)
    else if read8 st ((bl + bi : Int)) ≠ read8 st ((aL + al : Int)) then (bi, al)
    else scanFwd st aL aR bl k (bi + 1) (al + 1)

/-- The descent loop of add, over the right-side trie. -/
def addGo (aL0 aL char0 aR pivot : Nat) : Nat → Cont → Nat → Nat → Option (Nat × Cont)
  | 0, _, _, _ => none
  | fuel + 1, st, icell, al =>
    let binfo := read32 st (icell + SEGMENT_INFO)
    let bR := binfo >>> 24
    if bR = 0 then
      -- skip boundary cells
      addGo aL0 aL char0 aR pivot fuel st (read32 st (icell + BCELL_NEXT_AND)) al
    else
      let bl := char0 + (binfo &&& 0x00FFFFFF)
      if read8 st (bl : Int) ≠ read8 st ((aL + al : Int)) then
        let inext := read32 st (icell + CELL_OR)
        if inext = 0 then
          let inext2stP := addCell st 0 0 (toSegmentInfo aL0 al aR)
          let inext2 := inext2stP.1
          let st := inext2stP.2
          let st := write32 st (icell + CELL_OR) inext2
          addLeft st fuel inext2 aL0 pivot
        else addGo aL0 aL char0 aR pivot fuel st inext al
      else
        let bial2P := scanFwd st aL aR bl (bR - 1) 1 (al + 1)
        let bi := bial2P.1
        let al2 := bial2P.2
        if bi = bR then
          -- all segment characters matched
          if al2 = aR then addLeft st fuel icell aL0 pivot
          else
            let inext := read32 st (icell + CELL_AND)
            if read32 st (inext + CELL_AND) ≠ 0 then addGo aL0 aL char0 aR pivot fuel st inext al2
            else
              let icell2stP := addCell st 0 0 (toSegmentInfo aL0 al2 aR)
              let icell2 := icell2stP.1
              let st := icell2stP.2
              let st := write32 st (inext + CELL_AND) icell2
              addLeft st fuel icell2 aL0 pivot
        else
          -- split the current cell
          let blr := bl - char0
          let st := write32 st (icell + SEGMENT_INFO) (((bi <<< 24) ||| blr) % 2 ^ 32)
          let inextstP := addCell st (read32 st (icell + CELL_AND)) 0 ((((bR - bi) <<< 24) ||| (blr + bi)) % 2 ^ 32)
          let inext := inextstP.1
          let st := inextstP.2
          let st := write32 st (icell + CELL_AND) inext
          if al2 = aR then addLeft st fuel icell aL0 pivot
          else
            let icell2stP := addCell st 0 0 (toSegmentInfo aL0 al2 aR)
            let icell2 := icell2stP.1
            let st := icell2stP.2
            let st := write32 st (inext + CELL_OR) icell2
            addLeft st fuel icell2 aL0 pivot

/-- add(iroot, aL0, n, pivot) from the source. -/
def add (st0 : Cont) (fuel iroot aL0 n pivot : Nat) : Option (Nat × Cont) :=
  let aR := n
  if aR = 0 then some (0, st0)
  else
    let st :=
      if read32 st0 CHAR0_SLOT - read32 st0 TRIE1_SLOT < MIN_FREE_CELL_BYTE_LENGTH then
        growBuf st0 MIN_FREE_CELL_BYTE_LENGTH 0
      else st0
    let char0 := read32 st CHAR0_SLOT
    let aL := char0 + aL0
    if read32 st (iroot + SEGMENT_INFO) = 0 then
      let st := write32 st (iroot + SEGMENT_INFO) (toSegmentInfo aL0 pivot aR)
      addLeft st fuel iroot aL0 pivot
    else
      addGo aL0 aL char0 aR pivot fuel st iroot pivot

/-- The inner needle-compare loop of indexOf; the fuel equals the needle
length, so a zero-length needle is reported as divergence, matching the
source where the loop never hits its exit test. -/
def indexOfCmp (st : Cont) (needleRight : Nat) : Nat → Nat → Nat → Option Bool
  | 0, _, _ => none
  | k + 1, i, j =>
    if read8 st (i : Int) = read8 st (j : Int) then
      let j2 := j + 1
      if j2 = needleRight then some true else indexOfCmp st needleRight k (i + 1) j2
    else some false

/-- The outer loop of indexOf. -/
def indexOfGo (st : Cont) (needleLeft needleRight : Nat) (haystackEnd : Int) :
    Nat → Nat → Option Int
  | 0, _ => none
  | fuel + 1, hL =>
    match indexOfCmp st needleRight (needleRight - needleLeft) hL needleLeft with
    | none => none
    | some true => some (hL : Int)
    | some false =>
      let hL2 := hL + 1
      if (hL2 : Int) = haystackEnd then some (-1) else
        indexOfGo st needleLeft needleRight haystackEnd fuel hL2

/-- indexOf(haystackLeft, haystackEnd, needleLeft, needleLen) from the
source; none means the loop failed to terminate within the fuel. -/
def indexOf (st : Cont) (fuel haystackLeft haystackEnd0 needleLeft0 needleLen : Nat) :
    Option Int :=
  let haystackEnd : Int := (haystackEnd0 : Int) - (needleLen : Int)
  if haystackEnd < (haystackLeft : Int) then some (-1)
  else
    let needleLeft := needleLeft0 + read32 st CHAR0_SLOT
    let needleRight := needleLeft + needleLen
    indexOfGo st needleLeft needleRight haystackEnd fuel haystackLeft

/-- serialize() from the source (the raw-array path): the 32-bit words of
the buffer from the start through char1. -/
def serialize (st : Cont) : List Nat :=
  (List.range ((read32 st CHAR1_SLOT + 3) / 4)).map (read32 st)

/-- unserialize(selfie) from the source (the raw-array path): false on an
empty image, otherwise grows the buffer when the page-rounded byte length
exceeds it and copies the words in at the start. -/
def unserialize (st0 : Cont) (selfie : List Nat) : Bool × Cont :=
  let byteLength := selfie.length * 4
  if byteLength = 0 then (false, st0)
  else
    let byteLength := roundToPageSize byteLength
    let st :=
      if byteLength > st0.size then { st0 with size := byteLength, mem := fun _ => 0 }
      else st0
    let st :=
      { st with mem := fun p =>
          if p / 4 < selfie.length then selfie.getD (p / 4) 0 / 2 ^ (8 * (p % 4)) % 256
          else st.mem p }
    (true, st)

/-- The DFS state of the STrieRef iterator: the current cell, the scratch
character buffer and write pointer, and the fork stack (each fork is pushed
as the cell index then the character pointer, so the pointer is on top). -/
structure IterState where
  icell : Nat
  charBuf : Nat → Nat
  charPtr : Nat
  forks : List Nat

/-- Copies one segment into the scratch buffer of the iterator; writes at
positions 256 and beyond are dropped, as for a 256-byte typed array. -/
def copySeg (st : Cont) : Nat → (Nat → Nat) → Nat → Nat → (Nat → Nat) × Nat
  | 0, cb, cp, _ => (cb, cp)
  | k + 1, cb, cp, i0 =>
    let b := (read8 st (i0 : Int)).getD 0
    copySeg st k (fun q => if cp < 256 ∧ q = cp then b else cb q) (cp + 1) (i0 + 1)

/-- The pattern emitted by the iterator: the scratch bytes up to the write
pointer (the source re-views the 256-byte scratch buffer, so the pointer is
capped at 256). -/
def patOf (cb : Nat → Nat) (cp : Nat) : List Nat :=
  (List.range (min cp 256)).map cb

/-- The inner loop of the iterator's next(). -/
def iterLoop (st : Cont) (char0 : Nat) :
    Nat → Nat → (Nat → Nat) → Nat → List Nat → Option (Option (List Nat) × IterState)
  | 0, _, _, _, _ => none
  | fuel + 1, icell, cb, cp, forks =>
    let idown := read32 st (icell + CELL_OR)
    let forks := if idown ≠ 0 then cp :: idown :: forks else forks
    let v := read32 st (icell + SEGMENT_INFO)
    let i0 := char0 + (v &&& 0x00FFFFFF)
    let cbcpP := copySeg st (v >>> 24) cb cp i0
    let cb := cbcpP.1
    let cp := cbcpP.2
    let icell2 := read32 st (icell + CELL_AND)
    if icell2 = 0 then some (some (patOf cb cp), ⟨icell2, cb, cp, forks⟩)
    else if read32 st (icell2 + SEGMENT_INFO) = 0 then
      some (some (patOf cb cp), ⟨read32 st (icell2 + CELL_AND), cb, cp, forks⟩)
    else iterLoop st char0 fuel icell2 cb cp forks

/-- next() of the STrieRef iterator: none means fuel ran out, some (none, s)
is the done state, some (some value, s) yields one pattern. -/
def iterNext (st : Cont) (char0 fuel : Nat) (s : IterState) :
    Option (Option (List Nat) × IterState) :=
  if s.icell = 0 then
    match s.forks with
    | charPtr :: icell :: rest => iterLoop st char0 fuel icell s.charBuf charPtr rest
    | _ => some (none, s)
  else iterLoop st char0 fuel s.icell s.charBuf s.charPtr s.forks

/-- Runs the iterator to completion, collecting the yielded patterns. -/
def iterAll (st : Cont) (char0 : Nat) : Nat → IterState → Option (List (List Nat))
  | 0, _ => none
  | fuel + 1, s =>
    match iterNext st char0 (fuel + 1) s with
    | none => none
    | some (none, _) => some []
    | some (some val, s2) => (iterAll st char0 fuel s2).map (fun l => val :: l)

/-- Iterating a trie handle from its root, as for ... of does in the source. -/
def iterate (st : Cont) (fuel iroot : Nat) : Option (List (List Nat)) :=
  iterAll st (read32 st CHAR0_SLOT) fuel ⟨iroot, fun _ => 0, 0, []⟩

/-! ### Basic read/write lemmas for the buffer model -/

theorem write8_size (st : Cont) (p v : Nat) : (write8 st p v).size = st.size := rfl

theorem write8_haystackLen (st : Cont) (p v : Nat) :
    (write8 st p v).haystackLen = st.haystackLen := rfl

theorem write8_extraHandler (st : Cont) (p v : Nat) :
    (write8 st p v).extraHandler = st.extraHandler := rfl

theorem write8_mem_ne (st : Cont) (p v q : Nat) (h : q ≠ p) :
    (write8 st p v).mem q = st.mem q := by
  unfold write8; simp [h]

theorem write8_mem_self (st : Cont) (p v : Nat) (h : p < st.size) :
    (write8 st p v).mem p = v % 256 := by
  unfold write8; simp [h]

theorem write32_size (st : Cont) (i v : Nat) : (write32 st i v).size = st.size := rfl

theorem write32_haystackLen (st : Cont) (i v : Nat) :
    (write32 st i v).haystackLen = st.haystackLen := rfl

theorem write32_extraHandler (st : Cont) (i v : Nat) :
    (write32 st i v).extraHandler = st.extraHandler := rfl

theorem write32_mem_out (st : Cont) (i v q : Nat) (h : q < 4 * i ∨ 4 * i + 4 ≤ q) :
    (write32 st i v).mem q = st.mem q := by
  unfold write32
  have hq : ¬ (4 * i ≤ q ∧ q < 4 * i + 4) := by omega
  simp [hq]

theorem write32_mem_in (st : Cont) (i v q : Nat) (hsz : 4 * i + 3 < st.size)
    (h : 4 * i ≤ q ∧ q < 4 * i + 4) :
    (write32 st i v).mem q = v / 2 ^ (8 * ((q - 4 * i) % 4)) % 256 := by
  unfold write32; simp [hsz, h]

theorem read32_write32_ne (st : Cont) (i v j : Nat) (h : j ≠ i) :
    read32 (write32 st i v) j = read32 st j := by
  unfold read32
  rw [write32_mem_out st i v (4 * j) (by omega),
    write32_mem_out st i v (4 * j + 1) (by omega),
    write32_mem_out st i v (4 * j + 2) (by omega),
    write32_mem_out st i v (4 * j + 3) (by omega)]

theorem read32_write32_self (st : Cont) (i v : Nat) (hsz : 4 * i + 3 < st.size) :
    read32 (write32 st i v) i = v % 2 ^ 32 := by
  unfold read32
  rw [write32_mem_in st i v (4 * i) hsz (by omega),
    write32_mem_in st i v (4 * i + 1) hsz (by omega),
    write32_mem_in st i v (4 * i + 2) hsz (by omega),
    write32_mem_in st i v (4 * i + 3) hsz (by omega)]
  norm_num
  omega

theorem read8_write32_out (st : Cont) (i v : Nat) (p : Int)
    (h : p < (4 * i : Nat) ∨ ((4 * i + 4 : Nat) : Int) ≤ p) :
    read8 (write32 st i v) p = read8 st p := by
  unfold read8
  rw [write32_size]
  split
  · next hin =>
    rw [write32_mem_out]
    omega
  · rfl

/-- All bytes of the buffer model are below 256 (used to reconstruct bytes
from 32-bit reads). -/
def Bytes (st : Cont) : Prop := ∀ p, st.mem p < 256

theorem Bytes.write8 {st : Cont} (h : Bytes st) (p v : Nat) : Bytes (write8 st p v) := by
  intro q
  unfold STrie.write8
  dsimp only
  split
  · exact Nat.mod_lt _ (by omega)
  · exact h q

theorem Bytes.write32 {st : Cont} (h : Bytes st) (i v : Nat) : Bytes (write32 st i v) := by
  intro q
  unfold STrie.write32
  dsimp only
  split
  · exact Nat.mod_lt _ (by omega)
  · exact h q

theorem Bytes.writeBytes {st : Cont} (h : Bytes st) (p : Nat) (s : List Nat) :
    Bytes (writeBytes st p s) := by
  induction s generalizing st p with
  | nil => exact h
  | cons c cs ih => exact ih (h.write8 p c) (p + 1)

theorem Bytes.init (byteLength char0 : Nat) (h : Int → Nat → Nat → Int) :
    Bytes (init byteLength char0 h) := by
  unfold STrie.init
  refine Bytes.write32 (Bytes.write32 (Bytes.write32 (Bytes.write32 ?_ _ _) _ _) _ _) _ _
  intro p; simp

theorem Bytes.setHaystack {st : Cont} (h : Bytes st) (s : List Nat) :
    Bytes (setHaystack st s) := by
  unfold STrie.setHaystack
  exact fun p => h.writeBytes HAYSTACK_START s p

theorem Bytes.reallocBuf {st : Cont} (h : Bytes st) (bufLen char0 charDataLen : Nat) :
    Bytes (reallocBuf st bufLen char0 charDataLen) := by
  refine Bytes.write32 (Bytes.write32 ?_ _ _) _ _
  intro q
  dsimp only
  split_ifs <;> first | exact h _ | omega

theorem Bytes.copyWithinChars {st1 : Cont} (h : Bytes st1) (char0 char1new : Nat) :
    Bytes (copyWithinChars st1 char0 char1new) := by
  unfold STrie.copyWithinChars
  split
  · exact h
  · refine Bytes.write32 (Bytes.write32 ?_ _ _) _ _
    intro q
    dsimp only
    split_ifs <;> exact h _

theorem Bytes.resizeBuf {st : Cont} (h : Bytes st) (bufLen0 char0 : Nat) :
    Bytes (resizeBuf st bufLen0 char0) := by
  unfold STrie.resizeBuf
  split
  · exact h
  · refine Bytes.copyWithinChars ?_ _ _
    split
    · exact h
    · exact h.reallocBuf _ _ _

theorem Bytes.growBuf {st : Cont} (h : Bytes st) (trieGrow charGrow : Nat) :
    Bytes (growBuf st trieGrow charGrow) :=
  h.resizeBuf _ _

theorem Bytes.storeString {st : Cont} (h : Bytes st) (s : List Nat) :
    Bytes (storeString st s).2 := by
  unfold STrie.storeString
  simp only []
  split
  · exact ((h.growBuf 0 s.length).write32 _ _).writeBytes _ _
  · exact (h.write32 _ _).writeBytes _ _

theorem Bytes.allocateCell {st : Cont} (h : Bytes st) : Bytes (allocateCell st).2 := by
  unfold STrie.allocateCell
  exact ((h.write32 _ _).write32 _ _).write32 _ _ |>.write32 _ _

theorem Bytes.addCell {st : Cont} (h : Bytes st) (iand ior v : Nat) :
    Bytes (addCell st iand ior v).2 := by
  unfold STrie.addCell
  exact ((h.allocateCell.write32 _ _).write32 _ _).write32 _ _

theorem Bytes.setExtra {st : Cont} (h : Bytes st) (iboundary v : Nat) :
    Bytes (setExtra st iboundary v) :=
  h.write32 _ _

theorem Bytes.createOne {st : Cont} (h : Bytes st) : Bytes (createOne st).2 := by
  unfold STrie.createOne
  simp only
  split
  · exact (((h.growBuf _ 0).write32 _ _).write32 _ _).write32 _ _ |>.write32 _ _
  · exact ((h.write32 _ _).write32 _ _).write32 _ _ |>.write32 _ _


/-! ### Concrete container scenarios used by the claim theorems -/

/-- A handler that rejects every extra value (used where extras are 0 or 1
and the handler is never consulted). -/
def zeroHandler : Int → Nat → Nat → Int := fun _ _ _ => 0

/-! The C8 scenario: the one-byte pattern a is stored and marked terminal;
the haystack window first receives the byte a (haystackLen 1), then an empty
haystack (haystackLen 0), leaving the old byte in the window. -/

def c8store : Nat × Cont := storeString (init 0 0 zeroHandler) [97]
def c8trie : Nat × Cont := createOne c8store.2
def c8add : Nat × Cont := (add c8trie.2 100 c8trie.1 c8store.1 1 0).getD (0, c8trie.2)
def c8state : Cont := setHaystack (setHaystack (setExtra c8add.2 c8add.1 1) [97]) []

/-- C8: matches reads the first byte of a segment without checking that the
position lies below haystackLen, so a stored one-byte pattern is accepted at
i = haystackLen from a stale byte of the haystack window: here haystackLen
is 0, the stale byte a is still at position 0, and matches(iroot, 0) returns
true with side channel r = 1 > haystackLen. -/
theorem c8_stale_byte_accepted :
    c8state.haystackLen = 0 ∧ c8state.mem 0 = 97 ∧
    matchesFn c8state 100 c8trie.1 c8state.haystackLen = some (some (0, 1, -1)) ∧
    1 > c8state.haystackLen := by decide

/-! The C5 scenario: the needle b is interned, the haystack window holds ab. -/

def c5store : Nat × Cont := storeString (init 0 0 zeroHandler) [98]
def c5state : Cont := setHaystack c5store.2 [97, 98]

/-- C5: indexOf(0, 2, nL, 1) must report the leftmost match in the inclusive
range [0, 2 - 1]; the needle b occurs at position 1 = hR - nLen, yet the
code returns -1 because its exit test (haystackLeft === haystackEnd after
the increment) skips the final position. -/
theorem c5_indexOf_misses_last_position :
    c5state.mem 1 = 98 ∧
    c5state.mem (read32 c5state CHAR0_SLOT + c5store.1) = 98 ∧
    indexOf c5state 100 0 2 c5store.1 1 = some (-1) := by decide

/-! The C4 counterexample scenario: pattern ab with pivot 1 (left a, right
b) is inserted by add alone; no extra is attached to the returned boundary
cell. -/

def c4store : Nat × Cont := storeString (init 0 0 zeroHandler) [97, 98]
def c4trie : Nat × Cont := createOne c4store.2
def c4add : Nat × Cont := (add c4trie.2 100 c4trie.1 c4store.1 2 1).getD (0, c4trie.2)
def c4stateNoExtra : Cont := setHaystack c4add.2 [97, 98]

/-- C4 counterexample: insertion via add alone leaves the boundary cells
with EXTRA = 0 (no terminal), so matching the concatenation left + right at
position len(left) = 1 returns false: the claim fails as stated, although
add returned a nonzero boundary cell. -/
theorem c4_add_alone_does_not_match :
    c4add.1 ≠ 0 ∧ matchesFn c4stateNoExtra 100 c4trie.1 1 = some none := by decide

/-! The C3 counterexample scenario: the same pattern ab (pivot 0) is
inserted twice into one trie. -/

def c3store : Nat × Cont := storeString (init 0 0 zeroHandler) [97, 98]
def c3trie : Nat × Cont := createOne c3store.2
def c3add1 : Nat × Cont := (add c3trie.2 100 c3trie.1 c3store.1 2 0).getD (0, c3trie.2)
def c3add2 : Nat × Cont := (add c3add1.2 100 c3trie.1 c3store.1 2 0).getD (0, c3add1.2)

/-- C3 counterexample: the pattern ab is inserted twice (both calls return a
nonzero boundary, so the handle size is incremented twice), yet iterating
the trie yields ab exactly once: the iteration is not multiset-equal to the
inserted multiset. -/
theorem c3_duplicate_insert_iterates_once :
    c3add1.1 ≠ 0 ∧ c3add2.1 ≠ 0 ∧
    iterate c3add2.2 100 c3trie.1 = some [[97, 98]] ∧
    ((iterate c3add2.2 100 c3trie.1).getD []).count [97, 98] = 1 := by decide

/-- The 32-bit words of the model are always below 2^32. -/
theorem read32_lt {st : Cont} (hb : Bytes st) (i : Nat) : read32 st i < 2 ^ 32 := by
  unfold read32
  have h0 := hb (4 * i); have h1 := hb (4 * i + 1)
  have h2 := hb (4 * i + 2); have h3 := hb (4 * i + 3)
  omega

/-- C10: reset writes trie0 into the trie1 slot and char0 into the char1
slot and changes nothing else: buffer length, haystackLen, the handler, the
trie0 and char0 slots, and every byte outside the two rewritten slots
(including the whole haystack window) are unchanged. -/
theorem c10_reset_frame (st : Cont) (hb : Bytes st) (hsz : 2068 ≤ st.size) :
    (reset st).size = st.size ∧
    (reset st).haystackLen = st.haystackLen ∧
    (reset st).extraHandler = st.extraHandler ∧
    read32 (reset st) TRIE1_SLOT = read32 st TRIE0_SLOT ∧
    read32 (reset st) CHAR1_SLOT = read32 st CHAR0_SLOT ∧
    read32 (reset st) TRIE0_SLOT = read32 st TRIE0_SLOT ∧
    read32 (reset st) CHAR0_SLOT = read32 st CHAR0_SLOT ∧
    (∀ p, p < 4 * TRIE1_SLOT ∨ (4 * TRIE1_SLOT + 4 ≤ p ∧ p < 4 * CHAR1_SLOT) ∨
        4 * CHAR1_SLOT + 4 ≤ p →
      (reset st).mem p = st.mem p) := by
  have e1 : TRIE1_SLOT = 514 := rfl
  have e2 : CHAR1_SLOT = 516 := rfl
  have e3 : TRIE0_SLOT = 513 := rfl
  have e4 : CHAR0_SLOT = 515 := rfl
  unfold reset
  simp only [e1, e2, e3, e4]
  refine ⟨rfl, rfl, rfl, ?_, ?_, ?_, ?_, ?_⟩
  · rw [read32_write32_ne _ _ _ _ (by omega)]
    rw [read32_write32_self _ _ _ (by omega)]
    exact Nat.mod_eq_of_lt (read32_lt hb _)
  · have hs2 : 4 * 516 + 3 < (write32 st 514 (read32 st 513)).size := by
      rw [write32_size]; omega
    rw [read32_write32_self _ _ _ hs2]
    rw [read32_write32_ne _ _ _ _ (by omega)]
    exact Nat.mod_eq_of_lt (read32_lt hb _)
  · rw [read32_write32_ne _ _ _ _ (by omega), read32_write32_ne _ _ _ _ (by omega)]
  · rw [read32_write32_ne _ _ _ _ (by omega), read32_write32_ne _ _ _ _ (by omega)]
  · intro p hp
    rw [write32_mem_out _ _ _ _ (by omega), write32_mem_out _ _ _ _ (by omega)]

def c10state : Cont := init 0 0 zeroHandler

/-- C10 witness: the reset frame theorem applied to a freshly constructed
container. -/
theorem c10_reset_frame_witness :
    read32 (reset c10state) TRIE1_SLOT = read32 c10state TRIE0_SLOT ∧
    (reset c10state).mem 0 = c10state.mem 0 :=
  ⟨(c10_reset_frame c10state (Bytes.init 0 0 zeroHandler) (by decide)).2.2.2.1,
   (c10_reset_frame c10state (Bytes.init 0 0 zeroHandler) (by decide)).2.2.2.2.2.2.2 0
     (by decide)⟩

/-- C9: unserialize returns false exactly on a zero-byte image; every
nonempty image is accepted: the buffer grows to the page-rounded image size
when that exceeds it, the image words are copied to the start of the buffer,
and nothing about the contents is validated (the result is true for every
nonempty word list); the haystackLen field and handler are untouched. -/
theorem c9_unserialize_spec (st : Cont) (selfie : List Nat)
    (hws : ∀ w ∈ selfie, w < 2 ^ 32) :
    ((unserialize st selfie).1 = false ↔ selfie.length * 4 = 0) ∧
    (selfie ≠ [] →
      (unserialize st selfie).1 = true ∧
      (unserialize st selfie).2.size =
        (if roundToPageSize (selfie.length * 4) > st.size then
          roundToPageSize (selfie.length * 4)
         else st.size) ∧
      (∀ k, k < selfie.length → read32 (unserialize st selfie).2 k = selfie.getD k 0) ∧
      (unserialize st selfie).2.haystackLen = st.haystackLen ∧
      (unserialize st selfie).2.extraHandler = st.extraHandler) := by
  unfold unserialize
  simp only []
  split
  · next h0 =>
    refine ⟨by simpa using h0, fun hne => absurd ?_ hne⟩
    cases selfie with
    | nil => rfl
    | cons a l => simp at h0
  · next h0 =>
    refine ⟨iff_of_false (by simp) h0, fun hne => ⟨rfl, ?_, ?_, ?_, ?_⟩⟩
    · split <;> rfl
    · intro k hk
      unfold read32
      dsimp only
      rw [if_pos (by omega), if_pos (by omega), if_pos (by omega), if_pos (by omega)]
      rw [show 4 * k / 4 = k by omega, show (4 * k + 1) / 4 = k by omega,
        show (4 * k + 2) / 4 = k by omega, show (4 * k + 3) / 4 = k by omega,
        show 4 * k % 4 = 0 by omega, show (4 * k + 1) % 4 = 1 by omega,
        show (4 * k + 2) % 4 = 2 by omega, show (4 * k + 3) % 4 = 3 by omega]
      set w := selfie.getD k 0 with hwd
      have hw : w < 2 ^ 32 := by
        have hmem : w ∈ selfie := by
          rw [hwd, List.getD_eq_getElem selfie 0 hk]
          exact List.getElem_mem hk
        exact hws _ hmem
      norm_num
      omega
    · split <;> rfl
    · split <;> rfl

def c9state : Cont := init 0 0 zeroHandler

/-- C9 witness: a one-word image is accepted and its word lands at the
start of the buffer. -/
theorem c9_unserialize_spec_witness :
    (unserialize c9state [5]).1 = true ∧ read32 (unserialize c9state [5]).2 0 = 5 :=
  ⟨((c9_unserialize_spec c9state [5] (by decide)).2 (by decide)).1,
   ((c9_unserialize_spec c9state [5] (by decide)).2 (by decide)).2.2.1 0 (by decide)⟩


/-! The C7 scenario: pattern ab with pivot 0 stored and marked terminal,
haystack ab with haystackLen 2. -/

def c7store : Nat × Cont := storeString (init 0 0 zeroHandler) [97, 98]
def c7trie : Nat × Cont := createOne c7store.2
def c7add : Nat × Cont := (add c7trie.2 100 c7trie.1 c7store.1 2 0).getD (0, c7trie.2)
def c7state : Cont := setHaystack (setExtra c7add.2 c7add.1 1) [97, 98]

/-- A matches variant that follows the words of the spec for C7: the
haystack length is read from the 32-bit header slot at byte offset 2048
instead of the haystackLen instance field.  This definition exists only to
be compared against matchesFn, the translation of the source. -/
def matchesSlotModel (st : Cont) (fuel iroot i : Nat) : Option (Option MRes) :=
  matchesGo st (read32 st CHAR0_SLOT) (read32 st HAYSTACK_SIZE_SLOT) i fuel iroot i

/-- C7 counterexample: in a state reached through the public operations
(store, create, add, setExtra, haystack handoff) the header slot at byte
offset 2048 holds 0 while haystackLen is 2, and matches succeeds, which it
could not do if it read the haystack length from that slot: the slot-reading
variant returns false on the same state. -/
theorem c7_slot_does_not_hold_haystackLen :
    read32 c7state HAYSTACK_SIZE_SLOT = 0 ∧
    c7state.haystackLen = 2 ∧
    matchesFn c7state 100 c7trie.1 0 = some (some (0, 2, -1)) ∧
    matchesSlotModel c7state 100 c7trie.1 0 = some none := by decide


/-! ### Frame lemmas: matching depends only on the bytes it can reach -/

/-- Agreement of two container states on a set of byte positions: both
buffers contain the position and hold the same byte there, and the
haystackLen field and handler coincide. -/
def Agree (st1 st2 : Cont) (P : Nat → Prop) : Prop :=
  st1.haystackLen = st2.haystackLen ∧ st1.extraHandler = st2.extraHandler ∧
  ∀ p, P p → p < st1.size ∧ p < st2.size ∧ st1.mem p = st2.mem p

theorem Agree.read8 {st1 st2 : Cont} {P : Nat → Prop} (h : Agree st1 st2 P)
    (p : Int) (hp : 0 ≤ p → P p.toNat) : read8 st1 p = read8 st2 p := by
  unfold STrie.read8
  rcases Int.lt_or_le p 0 with hneg | hpos
  · rw [if_neg (by omega), if_neg (by omega)]
  · obtain ⟨hs1, hs2, hm⟩ := h.2.2 p.toNat (hp hpos)
    rw [if_pos (by omega), if_pos (by omega), hm]

theorem Agree.read32 {st1 st2 : Cont} {P : Nat → Prop} (h : Agree st1 st2 P)
    (i : Nat) (hp : ∀ q < 4 * i + 4, 4 * i ≤ q → P q) :
    read32 st1 i = read32 st2 i := by
  unfold STrie.read32
  rw [(h.2.2 (4 * i) (hp _ (by omega) (by omega))).2.2,
    (h.2.2 (4 * i + 1) (hp _ (by omega) (by omega))).2.2,
    (h.2.2 (4 * i + 2) (hp _ (by omega) (by omega))).2.2,
    (h.2.2 (4 * i + 3) (hp _ (by omega) (by omega))).2.2]

/-- The discriminator the source uses for cells: word 2 above
BCELL_EXTRA_MAX marks a segment cell. -/
def IsSeg (st : Cont) (c : Nat) : Prop := read32 st (c + 2) > BCELL_EXTRA_MAX

instance (st : Cont) (c : Nat) : Decidable (IsSeg st c) := by
  unfold IsSeg; infer_instance

/-- A closed collection of trie cells whose words and segment bytes all lie
inside the position set P: word 0 and word 1 of each cell link back into the
collection (or are 0 where the matcher then stops), links that the matcher
walks as segment chains lead to segment cells, and the byte range of every
segment is inside P. -/
def CellsOk (st : Cont) (char0 : Nat) (P : Nat → Prop) (C : List Nat) : Prop :=
  ∀ c ∈ C, c ≠ 0 ∧
    (∀ k < 12, P (4 * c + k)) ∧
    (IsSeg st c →
      (∀ k < read32 st (c + 2) >>> 24,
        P (char0 + (read32 st (c + 2) &&& 0x00FFFFFF) + k)) ∧
      read32 st (c + 0) ∈ C ∧
      (read32 st (c + 1) = 0 ∨ read32 st (c + 1) ∈ C ∧ IsSeg st (read32 st (c + 1)))) ∧
    (¬ IsSeg st c →
      (read32 st (c + 0) = 0 ∨ read32 st (c + 0) ∈ C ∧ IsSeg st (read32 st (c + 0))) ∧
      (read32 st (c + 1) = 0 ∨ read32 st (c + 1) ∈ C ∧ IsSeg st (read32 st (c + 1))))

instance (st : Cont) (char0 : Nat) (P : Nat → Prop) [DecidablePred P] (C : List Nat) :
    Decidable (CellsOk st char0 P C) := by
  unfold CellsOk; infer_instance

section Frame

variable {st1 st2 : Cont} {P : Nat → Prop} {C : List Nat} {char0 : Nat}

/-- Word reads agree on a covered cell. -/
theorem CellsOk.readWord (h : Agree st1 st2 P) (hC : CellsOk st1 char0 P C)
    {c : Nat} (hc : c ∈ C) (k : Nat) (hk : k < 3) :
    read32 st1 (c + k) = read32 st2 (c + k) := by
  refine h.read32 (c + k) fun q hq1 hq2 => ?_
  have := (hC c hc).2.1 (q - 4 * c) (by omega)
  rwa [show 4 * c + (q - 4 * c) = q by omega] at this

theorem matchesFind_frame (h : Agree st1 st2 P) (hC : CellsOk st1 char0 P C)
    (c : Option Nat) :
    ∀ fuel icell, icell ∈ C → IsSeg st1 icell →
      matchesFind st1 char0 c fuel icell = matchesFind st2 char0 c fuel icell ∧
      (∀ f v, matchesFind st1 char0 c fuel icell = some (some (f, v)) →
        f ∈ C ∧ IsSeg st1 f ∧ v = read32 st1 (f + 2)) := by
  intro fuel
  induction fuel with
  | zero => intro icell hmem hseg; exact ⟨rfl, fun f v hfv => by simp [matchesFind] at hfv⟩
  | succ n ih =>
    intro icell hmem hseg
    have hv : read32 st1 (icell + 2) = read32 st2 (icell + 2) :=
      hC.readWord h hmem 2 (by omega)
    have hspan := ((hC icell hmem).2.2.1 hseg).1
    have hlen : 1 ≤ read32 st1 (icell + 2) >>> 24 := by
      have hgt := hseg
      unfold IsSeg BCELL_EXTRA_MAX at hgt
      rw [Nat.shiftRight_eq_div_pow]
      omega
    have hbl : read8 st1 ((char0 + (read32 st1 (icell + 2) &&& 0x00FFFFFF) : Nat) : Int) =
        read8 st2 ((char0 + (read32 st1 (icell + 2) &&& 0x00FFFFFF) : Nat) : Int) := by
      refine h.read8 _ fun _ => ?_
      rw [Int.toNat_ofNat]
      simpa using hspan 0 (by omega)
    unfold matchesFind
    simp only [show SEGMENT_INFO = 2 from rfl, show CELL_OR = 1 from rfl]
    rw [← hv, ← hbl]
    split
    · exact ⟨rfl, fun f v hfv => by
        simp only [Option.some.injEq] at hfv
        obtain ⟨rfl, rfl⟩ : f = icell ∧ v = read32 st1 (icell + SEGMENT_INFO) := by
          cases hfv; exact ⟨rfl, rfl⟩
        exact ⟨hmem, hseg, rfl⟩⟩
    · have hor : read32 st1 (icell + 1) = read32 st2 (icell + 1) :=
        hC.readWord h hmem 1 (by omega)
      rw [← hor]
      split
      · exact ⟨rfl, fun f v hfv => by simp at hfv⟩
      · next hne =>
        rcases ((hC icell hmem).2.2.1 hseg).2.2 with h0 | ⟨hmem2, hseg2⟩
        · exact absurd h0 hne
        · exact ih _ hmem2 hseg2

end Frame


section Frame2

variable {st1 st2 : Cont} {P : Nat → Prop} {C : List Nat} {char0 : Nat}

theorem matchesLeftFind_frame (h : Agree st1 st2 P) (hC : CellsOk st1 char0 P C)
    (c : Option Nat) :
    ∀ fuel icell, icell ∈ C → IsSeg st1 icell →
      matchesLeftFind st1 char0 c fuel icell = matchesLeftFind st2 char0 c fuel icell ∧
      (∀ f v n, matchesLeftFind st1 char0 c fuel icell = some (some (f, v, n)) →
        f ∈ C ∧ IsSeg st1 f ∧ v = read32 st1 (f + 2) ∧ n = v >>> 24 - 1) := by
  intro fuel
  induction fuel with
  | zero =>
    intro icell hmem hseg
    exact ⟨rfl, fun f v n hfv => by simp [matchesLeftFind] at hfv⟩
  | succ m ih =>
    intro icell hmem hseg
    have hv : read32 st1 (icell + 2) = read32 st2 (icell + 2) :=
      hC.readWord h hmem 2 (by omega)
    have hspan := ((hC icell hmem).2.2.1 hseg).1
    have hlen : 1 ≤ read32 st1 (icell + 2) >>> 24 := by
      have hgt := hseg
      unfold IsSeg BCELL_EXTRA_MAX at hgt
      rw [Nat.shiftRight_eq_div_pow]
      omega
    have hbr : read8 st1 ((char0 + (read32 st1 (icell + 2) &&& 0x00FFFFFF) +
          (read32 st1 (icell + 2) >>> 24 - 1) : Nat) : Int) =
        read8 st2 ((char0 + (read32 st1 (icell + 2) &&& 0x00FFFFFF) +
          (read32 st1 (icell + 2) >>> 24 - 1) : Nat) : Int) := by
      refine h.read8 _ fun _ => ?_
      rw [Int.toNat_ofNat]
      exact hspan _ (by omega)
    unfold matchesLeftFind
    simp only [show SEGMENT_INFO = 2 from rfl, show CELL_OR = 1 from rfl]
    rw [← hv, ← hbr]
    split
    · refine ⟨rfl, fun f v n hfv => ?_⟩
      obtain ⟨rfl, rfl, rfl⟩ : f = icell ∧ v = read32 st1 (icell + 2) ∧
          n = read32 st1 (icell + 2) >>> 24 - 1 := by
        cases hfv; exact ⟨rfl, rfl, rfl⟩
      exact ⟨hmem, hseg, rfl, rfl⟩
    · have hor : read32 st1 (icell + 1) = read32 st2 (icell + 1) :=
        hC.readWord h hmem 1 (by omega)
      rw [← hor]
      split
      · exact ⟨rfl, fun f v n hfv => by simp at hfv⟩
      · next hne =>
        rcases ((hC icell hmem).2.2.1 hseg).2.2 with h0 | ⟨hmem2, hseg2⟩
        · exact absurd h0 hne
        · exact ih _ hmem2 hseg2

theorem cmpFwd_frame (h : Agree st1 st2 P) :
    ∀ n i j, (∀ k, k < n → P (i + k)) → (∀ k, k < n → P (j + k)) →
      cmpFwd st1 n i j = cmpFwd st2 n i j := by
  intro n
  induction n with
  | zero => intro i j hi hj; rfl
  | succ m ih =>
    intro i j hi hj
    unfold cmpFwd
    rw [h.read8 (i : Int) (fun _ => by simpa using hi 0 (by omega)),
      h.read8 (j : Int) (fun _ => by simpa using hj 0 (by omega)),
      ih (i + 1) (j + 1)
        (fun k hk => by have := hi (k + 1) (by omega); rwa [show i + (k + 1) = i + 1 + k by omega] at this)
        (fun k hk => by have := hj (k + 1) (by omega); rwa [show j + (k + 1) = j + 1 + k by omega] at this)]

theorem cmpBack_frame :
    ∀ (n : Nat) (i j : Int),
      (∀ k, k < n → read8 st1 (i - 1 - k) = read8 st2 (i - 1 - k)) →
      (∀ k, k < n → read8 st1 (j - 1 - k) = read8 st2 (j - 1 - k)) →
      cmpBack st1 n i j = cmpBack st2 n i j := by
  intro n
  induction n with
  | zero => intro i j hi hj; rfl
  | succ m ih =>
    intro i j hi hj
    unfold cmpBack
    rw [show read8 st1 (i - 1) = read8 st2 (i - 1) by simpa using hi 0 (by omega),
      show read8 st1 (j - 1) = read8 st2 (j - 1) by simpa using hj 0 (by omega),
      ih (i - 1) (j - 1)
        (fun k hk => by
          have := hi (k + 1) (by omega)
          push_cast at this
          rwa [show i - 1 - ((k : Int) + 1) = i - 1 - 1 - k by ring] at this)
        (fun k hk => by
          have := hj (k + 1) (by omega)
          push_cast at this
          rwa [show j - 1 - ((k : Int) + 1) = j - 1 - 1 - k by ring] at this)]

end Frame2


section Frame3

variable {st1 st2 : Cont} {P : Nat → Prop} {C : List Nat} {char0 : Nat}

/-- A segment cell has a nonzero packed length. -/
theorem IsSeg.len_pos {st : Cont} {c : Nat} (h : IsSeg st c) :
    1 ≤ read32 st (c + 2) >>> 24 := by
  unfold IsSeg BCELL_EXTRA_MAX at h
  rw [Nat.shiftRight_eq_div_pow]
  omega

theorem matchesLeftStep_frame (h : Agree st1 st2 P) (hC : CellsOk st1 char0 P C)
    (r : Nat) (Q : Int → Prop) (recur1 recur2 : Nat → Int → Option (Option MRes))
    (hrec : ∀ ic (a : Int), ic ∈ C → IsSeg st1 ic → Q a → recur1 ic a = recur2 ic a)
    (f : Nat) (hf : f ∈ C) (hfs : IsSeg st1 f) (ar2 : Int) (hQ : Q ar2) :
    matchesLeftStep st1 r recur1 f ar2 = matchesLeftStep st2 r recur2 f ar2 := by
  have h0 : read32 st1 (f + 0) = read32 st2 (f + 0) := hC.readWord h hf 0 (by omega)
  have hic1C : read32 st1 (f + 0) ∈ C := ((hC f hf).2.2.1 hfs).2.1
  have h2 : read32 st1 (read32 st1 (f + 0) + 2) = read32 st2 (read32 st1 (f + 0) + 2) :=
    hC.readWord h hic1C 2 (by omega)
  have h0b : read32 st1 (read32 st1 (f + 0) + 0) = read32 st2 (read32 st1 (f + 0) + 0) :=
    hC.readWord h hic1C 0 (by omega)
  unfold matchesLeftStep
  simp only [show CELL_AND = 0 from rfl, show BCELL_EXTRA = 2 from rfl,
    show BCELL_NEXT_AND = 0 from rfl]
  rw [← h0, ← h2, ← h0b, ← h.2.1]
  split
  · next hix =>
    have hnseg : ¬ IsSeg st1 (read32 st1 (f + 0)) := by
      unfold IsSeg; omega
    split
    · rfl
    · split
      · rfl
      · split
        · rfl
        · next hne hz =>
          rcases ((hC _ hic1C).2.2.2 hnseg).1 with hzero | ⟨hm, hs⟩
          · exact absurd hzero hne
          · exact hrec _ _ hm hs hQ
  · next hix =>
    have hseg1 : IsSeg st1 (read32 st1 (f + 0)) := by
      unfold IsSeg; omega
    split
    · rfl
    · exact hrec _ _ hic1C hseg1 hQ

theorem matchesLeftGo_frame (h : Agree st1 st2 P) (hC : CellsOk st1 char0 P C)
    (iB r : Nat) (hPle : ∀ p : Nat, p < iB → P p) :
    ∀ fuel icell (ar : Int), icell ∈ C → IsSeg st1 icell → ar ≤ (iB : Int) →
      matchesLeftGo st1 char0 r fuel icell ar = matchesLeftGo st2 char0 r fuel icell ar := by
  intro fuel
  induction fuel with
  | zero => intros; rfl
  | succ m ih =>
    intro icell ar hmem hseg har
    have hc : read8 st1 (ar - 1) = read8 st2 (ar - 1) :=
      h.read8 _ (fun hpos => hPle _ (by omega))
    obtain ⟨hfindEq, hfindProp⟩ :=
      matchesLeftFind_frame h hC (read8 st1 (ar - 1)) (m + 1) icell hmem hseg
    unfold matchesLeftGo
    simp only []
    rw [← hc, ← hfindEq]
    cases hres : matchesLeftFind st1 char0 (read8 st1 (ar - 1)) (m + 1) icell with
    | none => rfl
    | some o =>
      cases o with
      | none => rfl
      | some t =>
        obtain ⟨f, v, n⟩ := t
        obtain ⟨hfC, hfS, hveq, hneq⟩ := hfindProp f v n hres
        have hlen := hfS.len_pos
        have hspan := ((hC f hfC).2.2.1 hfS).1
        have hstep : ∀ a : Int, a ≤ (iB : Int) →
            matchesLeftStep st1 r (matchesLeftGo st1 char0 r m) f a =
            matchesLeftStep st2 r (matchesLeftGo st2 char0 r m) f a := by
          intro a ha
          exact matchesLeftStep_frame h hC r (fun x => x ≤ (iB : Int)) _ _
            (fun ic a2 hic hse hq => ih ic a2 hic hse hq) f hfC hfS a ha
        have hcmp : cmpBack st1 n (ar - 1) ((char0 + (v &&& 0x00FFFFFF) + n : Nat) : Int) =
            cmpBack st2 n (ar - 1) ((char0 + (v &&& 0x00FFFFFF) + n : Nat) : Int) := by
          refine cmpBack_frame n _ _ (fun k hk => ?_) (fun k hk => ?_)
          · exact h.read8 _ (fun hpos => hPle _ (by omega))
          · refine h.read8 _ (fun hpos => ?_)
            have ht : ((((char0 + (v &&& 0x00FFFFFF) + n : Nat) : Int) - 1 - (k : Int))).toNat =
                char0 + (v &&& 0x00FFFFFF) + n - 1 - k := by omega
            rw [ht]
            rw [hveq] at hneq ⊢
            rw [hneq]
            have := hspan (read32 st1 (f + 2) >>> 24 - 1 - 1 - k) (by omega)
            rwa [show char0 + (read32 st1 (f + 2) &&& 0x00FFFFFF) +
                (read32 st1 (f + 2) >>> 24 - 1 - 1 - k) =
              char0 + (read32 st1 (f + 2) &&& 0x00FFFFFF) +
                (read32 st1 (f + 2) >>> 24 - 1) - 1 - k by omega] at this
        simp only []
        rw [hcmp]
        split
        · split
          · rfl
          · split
            · exact hstep _ (by omega)
            · rfl
        · exact hstep _ (by omega)

end Frame3


section Frame4

variable {st1 st2 : Cont} {P : Nat → Prop} {C : List Nat} {char0 : Nat}

theorem matchesStep_frame (h : Agree st1 st2 P) (hC : CellsOk st1 char0 P C)
    (i fuel aR : Nat) (hPi : ∀ p : Nat, p < i → P p)
    (Q : Nat → Prop) (recur1 recur2 : Nat → Nat → Option (Option MRes))
    (hrec : ∀ ic a, ic ∈ C → IsSeg st1 ic → Q a → a ≠ aR → recur1 ic a = recur2 ic a)
    (f : Nat) (hf : f ∈ C) (hfs : IsSeg st1 f) (al1 : Nat) (hQ : Q al1) :
    matchesStep st1 char0 i fuel aR recur1 f al1 =
      matchesStep st2 char0 i fuel aR recur2 f al1 := by
  have h0 : read32 st1 (f + 0) = read32 st2 (f + 0) := hC.readWord h hf 0 (by omega)
  have hic1C : read32 st1 (f + 0) ∈ C := ((hC f hf).2.2.1 hfs).2.1
  have h2 : read32 st1 (read32 st1 (f + 0) + 2) = read32 st2 (read32 st1 (f + 0) + 2) :=
    hC.readWord h hic1C 2 (by omega)
  have h0b : read32 st1 (read32 st1 (f + 0) + 0) = read32 st2 (read32 st1 (f + 0) + 0) :=
    hC.readWord h hic1C 0 (by omega)
  have h1b : read32 st1 (read32 st1 (f + 0) + 1) = read32 st2 (read32 st1 (f + 0) + 1) :=
    hC.readWord h hic1C 1 (by omega)
  unfold matchesStep
  simp only [show CELL_AND = 0 from rfl, show BCELL_EXTRA = 2 from rfl,
    show BCELL_NEXT_AND = 0 from rfl, show BCELL_ALT_AND = 1 from rfl]
  rw [← h0, ← h2, ← h0b, ← h1b, ← h.2.1]
  split
  · next hix =>
    have hnseg : ¬ IsSeg st1 (read32 st1 (f + 0)) := by
      unfold IsSeg; omega
    have hleft :
        (if read32 st1 (read32 st1 (f + 0) + 1) ≠ 0 then
          matchesLeftGo st1 char0 al1 (fuel + 1) (read32 st1 (read32 st1 (f + 0) + 1)) (i : Int)
        else some none) =
        (if read32 st1 (read32 st1 (f + 0) + 1) ≠ 0 then
          matchesLeftGo st2 char0 al1 (fuel + 1) (read32 st1 (read32 st1 (f + 0) + 1)) (i : Int)
        else some none) := by
      split
      · next hne =>
        rcases ((hC _ hic1C).2.2.2 hnseg).2 with hzero | ⟨hm, hs⟩
        · exact absurd hzero hne
        · exact matchesLeftGo_frame h hC i al1 hPi (fuel + 1) _ _ hm hs (by omega)
      · rfl
    split
    · rfl
    · rw [← hleft]
      split
      · rfl
      · rfl
      · split
        · rfl
        · split
          · rfl
          · next hne hz =>
            rcases ((hC _ hic1C).2.2.2 hnseg).1 with hzero | ⟨hm, hs⟩
            · exact absurd hzero hne
            · exact hrec _ _ hm hs hQ hz
  · next hix =>
    have hseg1 : IsSeg st1 (read32 st1 (f + 0)) := by
      unfold IsSeg; omega
    split
    · rfl
    · next hz => exact hrec _ _ hic1C hseg1 hQ hz

theorem matchesGo_frame (h : Agree st1 st2 P) (hC : CellsOk st1 char0 P C)
    (aR i : Nat) (haR : ∀ p : Nat, p < aR → P p) :
    ∀ fuel icell al0, icell ∈ C → IsSeg st1 icell → al0 < aR → i < aR →
      matchesGo st1 char0 aR i fuel icell al0 = matchesGo st2 char0 aR i fuel icell al0 := by
  intro fuel
  induction fuel with
  | zero => intros; rfl
  | succ m ih =>
    intro icell al0 hmem hseg hal hi
    have hc : read8 st1 (al0 : Int) = read8 st2 (al0 : Int) :=
      h.read8 _ (fun hpos => by rw [Int.toNat_ofNat]; exact haR _ hal)
    obtain ⟨hfindEq, hfindProp⟩ :=
      matchesFind_frame h hC (read8 st1 (al0 : Int)) (m + 1) icell hmem hseg
    unfold matchesGo
    simp only []
    rw [← hc, ← hfindEq]
    cases hres : matchesFind st1 char0 (read8 st1 (al0 : Int)) (m + 1) icell with
    | none => rfl
    | some o =>
      cases o with
      | none => rfl
      | some t =>
        obtain ⟨f, v⟩ := t
        obtain ⟨hfC, hfS, hveq⟩ := hfindProp f v hres
        have hlen := hfS.len_pos
        have hspan := ((hC f hfC).2.2.1 hfS).1
        have hstep : ∀ a : Nat, a ≤ aR →
            matchesStep st1 char0 i m aR (matchesGo st1 char0 aR i m) f a =
            matchesStep st2 char0 i m aR (matchesGo st2 char0 aR i m) f a := by
          intro a ha
          refine matchesStep_frame h hC i m aR (fun p hp => haR _ (by omega))
            (fun x => x ≤ aR) _ _
            (fun ic a2 hic hse hq hne => ih ic a2 hic hse (by omega) hi) f hfC hfS a ha
        simp only []
        split
        · next hn0 =>
          split
          · rfl
          · next hover =>
            have hcmp : cmpFwd st1 (v >>> 24 - 1) (al0 + 1)
                  (char0 + (v &&& 0x00FFFFFF) + 1) =
                cmpFwd st2 (v >>> 24 - 1) (al0 + 1) (char0 + (v &&& 0x00FFFFFF) + 1) := by
              refine cmpFwd_frame h _ _ _ (fun k hk => haR _ (by omega)) (fun k hk => ?_)
              rw [hveq] at hk ⊢
              have := hspan (k + 1) (by omega)
              rwa [show char0 + (read32 st1 (f + 2) &&& 0x00FFFFFF) + (k + 1) =
                char0 + (read32 st1 (f + 2) &&& 0x00FFFFFF) + 1 + k by omega] at this
            rw [hcmp]
            split
            · exact hstep _ (by omega)
            · rfl
        · exact hstep _ (by omega)

end Frame4


section Frame5

variable {st1 st2 : Cont} {P : Nat → Prop} {C : List Nat}

/-- The top-level frame lemma for matches: two states that agree on a
position set covering the haystack prefix, the char0 header slot, and a
closed collection of trie cells with their segment bytes, give identical
matches results (side-channel values included) at haystack positions below
haystackLen. -/
theorem matchesFn_frame (h : Agree st1 st2 P)
    (hC : CellsOk st1 (read32 st1 CHAR0_SLOT) P C)
    (hslot : ∀ q, 4 * CHAR0_SLOT ≤ q → q < 4 * CHAR0_SLOT + 4 → P q)
    (fuel iroot i : Nat) (hroot : iroot ∈ C) (hseg : IsSeg st1 iroot)
    (hi : i < st1.haystackLen) (haR : ∀ p : Nat, p < st1.haystackLen → P p) :
    matchesFn st1 fuel iroot i = matchesFn st2 fuel iroot i := by
  unfold matchesFn
  have hch : read32 st1 CHAR0_SLOT = read32 st2 CHAR0_SLOT :=
    h.read32 _ (fun q h1 h2 => hslot q h2 h1)
  rw [← hch, ← h.1]
  exact matchesGo_frame h hC _ _ haR fuel iroot i hroot hseg hi hi

end Frame5

/-- The position set relevant to the C7 scenario: every buffer byte except
the four bytes of the header slot at offset 2048. -/
def c7P : Nat → Prop := fun p => p < 2048 ∨ (2052 ≤ p ∧ p < 524288)

instance (p : Nat) : Decidable (c7P p) := by unfold c7P; infer_instance

/-- The trie cells of the C7 scenario: the root segment cell and its
boundary cell. -/
def c7C : List Nat := [517, 520]

/-- C7 amended: haystackLen is an instance field, not a buffer slot.  The
constructor leaves the 32-bit slot at byte offset 2048 zero for every
detail option; overwriting that slot with any value does not change the
result of matches on the C7 scenario state, while clearing the haystackLen
field alone flips the same call to false, so matching reads the haystack
length from the field and not from the slot. -/
theorem c7_haystackLen_is_field :
    (∀ byteLength ch0 : Nat, ∀ hX : Int → Nat → Nat → Int,
      read32 (init byteLength ch0 hX) HAYSTACK_SIZE_SLOT = 0) ∧
    (∀ v : Nat, matchesFn (write32 c7state HAYSTACK_SIZE_SLOT v) 100 c7trie.1 0 =
      some (some (0, 2, -1))) ∧
    matchesFn { c7state with haystackLen := 0 } 100 c7trie.1 0 = some none := by
  refine ⟨?_, ?_, by decide⟩
  · intro byteLength ch0 hX
    unfold init
    simp only [show TRIE0_SLOT = 513 from rfl, show TRIE1_SLOT = 514 from rfl,
      show CHAR0_SLOT = 515 from rfl, show CHAR1_SLOT = 516 from rfl,
      show HAYSTACK_SIZE_SLOT = 512 from rfl]
    rw [read32_write32_ne _ _ _ _ (by omega), read32_write32_ne _ _ _ _ (by omega),
      read32_write32_ne _ _ _ _ (by omega), read32_write32_ne _ _ _ _ (by omega)]
    simp [read32]
  · intro v
    have hagree : Agree c7state (write32 c7state HAYSTACK_SIZE_SLOT v) c7P := by
      refine ⟨rfl, rfl, fun p hp => ?_⟩
      have hsz : c7state.size = 524288 := rfl
      refine ⟨?_, ?_, ?_⟩
      · unfold c7P at hp; omega
      · rw [write32_size]; unfold c7P at hp; omega
      · rw [write32_mem_out]
        unfold c7P at hp
        simp only [show HAYSTACK_SIZE_SLOT = 512 from rfl]
        omega
    have heq := @matchesFn_frame c7state (write32 c7state HAYSTACK_SIZE_SLOT v) c7P c7C
      hagree (by decide)
      (by intro q h1 h2; unfold c7P; simp only [show CHAR0_SLOT = 515 from rfl] at h1 h2; omega)
      100 c7trie.1 0 (by decide) (by decide) (by decide)
      (by intro p hp; unfold c7P; have : c7state.haystackLen = 2 := rfl; omega)
    rw [← heq]
    decide


/-! ### C2: serialization round trip -/

theorem roundToPageSize_ge (v : Nat) : v ≤ roundToPageSize v := by
  unfold roundToPageSize PAGE_SIZE; omega

theorem serialize_length (S : Cont) :
    (serialize S).length = (read32 S CHAR1_SLOT + 3) / 4 := by
  unfold serialize
  rw [List.length_map, List.length_range]

theorem serialize_getD (S : Cont) (k : Nat) (hk : k < (read32 S CHAR1_SLOT + 3) / 4) :
    (serialize S).getD k 0 = read32 S k := by
  unfold serialize
  rw [List.getD_eq_getElem?_getD, List.getElem?_map, List.getElem?_range hk]
  rfl

/-! The C2 counterexample scenario: the container is built with the char0
detail at 2304 (as after an optimize round trip) so that the serialized
image is small; pattern ab (pivot 0, extra 1) is stored and the haystack ab
is handed off.  The image is loaded into a fresh container. -/

def c2store : Nat × Cont := storeString (init 0 2304 zeroHandler) [97, 98]
def c2trie : Nat × Cont := createOne c2store.2
def c2add : Nat × Cont := (add c2trie.2 100 c2trie.1 c2store.1 2 0).getD (0, c2trie.2)
def c2S : Cont := setHaystack (setExtra c2add.2 c2add.1 1) [97, 98]
def c2T : Cont := init 0 0 zeroHandler
def c2S2 : Cont := (unserialize c2T (serialize c2S)).2

/-- C2 counterexample: a pattern matches in state S, the image of
serialize(S) is accepted by unserialize on a fresh container, yet in the
resulting state the same matches call returns false, because serialize does
not capture the haystackLen instance field (the fresh container keeps
haystackLen 0). -/
theorem c2_unserialize_loses_haystackLen :
    matchesFn c2S 100 c2trie.1 0 = some (some (0, 2, -1)) ∧
    (unserialize c2T (serialize c2S)).1 = true ∧
    c2S.haystackLen = 2 ∧ c2S2.haystackLen = 0 ∧
    matchesFn c2S2 100 c2trie.1 0 = some none := by decide


/-- C2 amended: the serialized image captures every byte below char1 but not
the haystackLen instance field; for any container state whose trie cells and
segment bytes lie below the serialized length, loading serialize(S) into a
container with the same handler and then restoring haystackLen (as the
haystack handoff does) gives identical matches results, side-channel values
included, at every haystack position below haystackLen. -/
theorem c2_roundtrip_after_restoring_haystackLen
    (S T : Cont) (C : List Nat) (iroot i fuel : Nat)
    (hbytes : Bytes S)
    (hhe : T.extraHandler = S.extraHandler)
    (hsz : 4 * ((read32 S CHAR1_SLOT + 3) / 4) ≤ S.size)
    (hslots : 2064 ≤ 4 * ((read32 S CHAR1_SLOT + 3) / 4))
    (hC : CellsOk S (read32 S CHAR0_SLOT)
      (fun p => p < 4 * ((read32 S CHAR1_SLOT + 3) / 4)) C)
    (hroot : iroot ∈ C) (hseg : IsSeg S iroot)
    (hi : i < S.haystackLen)
    (haR : S.haystackLen ≤ 4 * ((read32 S CHAR1_SLOT + 3) / 4)) :
    (unserialize T (serialize S)).1 = true ∧
    matchesFn { (unserialize T (serialize S)).2 with haystackLen := S.haystackLen }
        fuel iroot i =
      matchesFn S fuel iroot i := by
  have hlen : (serialize S).length = (read32 S CHAR1_SLOT + 3) / 4 := serialize_length S
  have hne4 : ¬ ((serialize S).length * 4 = 0) := by omega
  have hT1 : (unserialize T (serialize S)).1 = true := by
    unfold unserialize
    simp only []
    rw [if_neg hne4]
  have hEH : (unserialize T (serialize S)).2.extraHandler = T.extraHandler := by
    unfold unserialize
    simp only []
    rw [if_neg hne4]
    split <;> rfl
  have hsizeGe : roundToPageSize ((serialize S).length * 4) ≤ (unserialize T (serialize S)).2.size := by
    unfold unserialize
    simp only []
    rw [if_neg hne4]
    split
    · dsimp only
      omega
    · next hng => dsimp only; omega
  have hmemR : ∀ p, p / 4 < (serialize S).length →
      (unserialize T (serialize S)).2.mem p =
        (serialize S).getD (p / 4) 0 / 2 ^ (8 * (p % 4)) % 256 := by
    intro p hp
    unfold unserialize
    simp only []
    rw [if_neg hne4]
    dsimp only
    rw [if_pos hp]
  have hagree : Agree S { (unserialize T (serialize S)).2 with haystackLen := S.haystackLen }
      (fun p => p < 4 * ((read32 S CHAR1_SLOT + 3) / 4)) := by
    refine ⟨rfl, by dsimp only; rw [hEH, hhe], fun p hp => ?_⟩
    dsimp only at hp ⊢
    refine ⟨by omega, ?_, ?_⟩
    · have h1 := roundToPageSize_ge ((serialize S).length * 4)
      refine lt_of_lt_of_le ?_ hsizeGe
      omega
    · have hq : p / 4 < (serialize S).length := by omega
      show S.mem p = (unserialize T (serialize S)).2.mem p
      rw [hmemR p hq, serialize_getD S (p / 4) (by omega)]
      have hb0 := hbytes (4 * (p / 4))
      have hb1 := hbytes (4 * (p / 4) + 1)
      have hb2 := hbytes (4 * (p / 4) + 2)
      have hb3 := hbytes (4 * (p / 4) + 3)
      have hcase : p % 4 = 0 ∨ p % 4 = 1 ∨ p % 4 = 2 ∨ p % 4 = 3 := by omega
      unfold read32
      rcases hcase with h4 | h4 | h4 | h4 <;> rw [h4] <;> norm_num
      · rw [show 4 * (p / 4) = p from by omega] at hb0 ⊢
        omega
      · rw [show 4 * (p / 4) + 1 = p from by omega] at hb1 ⊢
        omega
      · rw [show 4 * (p / 4) + 2 = p from by omega] at hb2 ⊢
        omega
      · rw [show 4 * (p / 4) + 3 = p from by omega] at hb3 ⊢
        omega
  refine ⟨hT1, ?_⟩
  refine (matchesFn_frame hagree hC ?_ fuel iroot i hroot hseg hi ?_).symm
  · intro q h1 h2
    dsimp only
    have : CHAR0_SLOT = 515 := rfl
    omega
  · intro p hp
    dsimp only
    omega


/-! The C2 witness state: the same layout as the counterexample scenario,
with the trie cells written through the primitive operations so that the
byte-boundedness hypothesis follows from the write lemmas. -/

def c2wstore : Nat × Cont := storeString (init 0 2304 zeroHandler) [97, 98]
def c2wtrie : Nat × Cont := createOne c2wstore.2
def c2wA : Cont := write32 c2wtrie.2 (c2wtrie.1 + SEGMENT_INFO) (toSegmentInfo 0 0 2)
def c2wB : Nat × Cont := allocateCell c2wA
def c2wS : Cont :=
  setHaystack (setExtra (write32 (write32 c2wB.2 (c2wtrie.1 + CELL_AND) c2wB.1)
    (c2wB.1 + BCELL_NEXT_AND) 0) c2wB.1 1) [97, 98]

theorem c2wS_bytes : Bytes c2wS :=
  Bytes.setHaystack (Bytes.setExtra (Bytes.write32 (Bytes.write32
    (Bytes.allocateCell (Bytes.write32 (Bytes.createOne (Bytes.storeString
      (Bytes.init 0 2304 zeroHandler) [97, 98])) _ _)) _ _) _ _) _ _) _

/-- C2 witness: the round-trip theorem applied to a concrete two-cell trie
over the pattern ab with the haystack ab. -/
theorem c2_roundtrip_witness :
    (unserialize c2T (serialize c2wS)).1 = true ∧
    matchesFn { (unserialize c2T (serialize c2wS)).2 with haystackLen := c2wS.haystackLen }
        100 517 0 = matchesFn c2wS 100 517 0 :=
  c2_roundtrip_after_restoring_haystackLen c2wS c2T [517, 520] 517 0 100
    c2wS_bytes rfl (by decide) (by decide) (by decide) (by decide) (by decide)
    (by decide) (by decide)

/-! ### Numeric values of the header slots and cell-field offsets -/

theorem TRIE0_SLOT_eq : TRIE0_SLOT = 513 := rfl

theorem TRIE1_SLOT_eq : TRIE1_SLOT = 514 := rfl

theorem CHAR0_SLOT_eq : CHAR0_SLOT = 515 := rfl

theorem CHAR1_SLOT_eq : CHAR1_SLOT = 516 := rfl

theorem CELL_AND_eq : CELL_AND = 0 := rfl

theorem CELL_OR_eq : CELL_OR = 1 := rfl

theorem SEGMENT_INFO_eq : SEGMENT_INFO = 2 := rfl

theorem BCELL_NEXT_AND_eq : BCELL_NEXT_AND = 0 := rfl

theorem BCELL_ALT_AND_eq : BCELL_ALT_AND = 1 := rfl

theorem BCELL_EXTRA_eq : BCELL_EXTRA = 2 := rfl

theorem BCELL_EXTRA_MAX_eq : BCELL_EXTRA_MAX = 16777215 := rfl

/-! ### writeBytes frame lemmas -/

theorem writeBytes_size (st : Cont) (p : Nat) (s : List Nat) :
    (writeBytes st p s).size = st.size := by
  induction s generalizing st p with
  | nil => rfl
  | cons c cs ih => exact ih _ _

theorem writeBytes_haystackLen (st : Cont) (p : Nat) (s : List Nat) :
    (writeBytes st p s).haystackLen = st.haystackLen := by
  induction s generalizing st p with
  | nil => rfl
  | cons c cs ih => exact ih _ _

theorem writeBytes_extraHandler (st : Cont) (p : Nat) (s : List Nat) :
    (writeBytes st p s).extraHandler = st.extraHandler := by
  induction s generalizing st p with
  | nil => rfl
  | cons c cs ih => exact ih _ _

theorem writeBytes_mem_out (st : Cont) (p : Nat) (s : List Nat) (q : Nat)
    (h : q < p ∨ p + s.length ≤ q) : (writeBytes st p s).mem q = st.mem q := by
  induction s generalizing st p with
  | nil => rfl
  | cons c cs ih =>
    simp only [List.length_cons] at h
    show (writeBytes (write8 st p c) (p + 1) cs).mem q = st.mem q
    rw [ih (write8 st p c) (p + 1) (by omega)]
    exact write8_mem_ne st p c q (by omega)

theorem writeBytes_mem_in (st : Cont) (p : Nat) (s : List Nat) (k : Nat)
    (hk : k < s.length) (hsz : p + s.length ≤ st.size) :
    (writeBytes st p s).mem (p + k) = s.getD k 0 % 256 := by
  induction s generalizing st p k with
  | nil => simp at hk
  | cons c cs ih =>
    simp only [List.length_cons] at hk hsz
    cases k with
    | zero =>
      show (writeBytes (write8 st p c) (p + 1) cs).mem (p + 0) = (c :: cs).getD 0 0 % 256
      rw [writeBytes_mem_out _ _ _ _ (by omega), Nat.add_zero, List.getD_cons_zero]
      exact write8_mem_self st p c (by omega)
    | succ k' =>
      have h := ih (write8 st p c) (p + 1) k' (by omega)
        (by rw [write8_size]; omega)
      rw [List.getD_cons_succ]
      rw [show p + (k' + 1) = p + 1 + k' by omega]
      exact h

theorem read32_writeBytes_out (st : Cont) (p : Nat) (s : List Nat) (j : Nat)
    (h : 4 * j + 4 ≤ p ∨ p + s.length ≤ 4 * j) :
    read32 (writeBytes st p s) j = read32 st j := by
  unfold read32
  rw [writeBytes_mem_out _ _ _ _ (by omega), writeBytes_mem_out _ _ _ _ (by omega),
    writeBytes_mem_out _ _ _ _ (by omega), writeBytes_mem_out _ _ _ _ (by omega)]

/-- A byte read at an in-range natural position is the stored byte. -/
theorem read8_eq_mem (st : Cont) (k : Nat) (h : k < st.size) :
    read8 st (k : Int) = some (st.mem k) := by
  unfold read8
  rw [if_pos ⟨Int.natCast_nonneg k, by exact_mod_cast h⟩]
  simp

/-! ### Decomposition of packed segment words -/

theorem toSegmentInfo_eq (aL l r : Nat) (hlen : r - l < 2 ^ 8) (hoff : aL + l < 2 ^ 24) :
    toSegmentInfo aL l r = (r - l) * 2 ^ 24 + (aL + l) := by
  unfold toSegmentInfo
  rw [Nat.shiftLeft_eq, Nat.mul_comm, ← Nat.mul_add_lt_is_or hoff]
  have h8 : (2 : Nat) ^ 8 = 256 := rfl
  have h24 : (2 : Nat) ^ 24 = 16777216 := rfl
  have h32 : (2 : Nat) ^ 32 = 4294967296 := rfl
  rw [Nat.mul_comm]
  exact Nat.mod_eq_of_lt (by rw [h32]; rw [h8] at hlen; rw [h24] at hoff ⊢; nlinarith)

theorem segLow (a b : Nat) (hb : b < 2 ^ 24) : (a * 2 ^ 24 + b) &&& 16777215 = b := by
  rw [show (16777215 : Nat) = 2 ^ 24 - 1 from rfl, Nat.and_pow_two_sub_one_eq_mod,
    Nat.mul_comm a, Nat.mul_add_mod]
  exact Nat.mod_eq_of_lt hb

theorem segHigh (a b : Nat) (hb : b < 2 ^ 24) : (a * 2 ^ 24 + b) >>> 24 = a := by
  rw [Nat.shiftRight_eq_div_pow, Nat.mul_comm a, Nat.mul_add_div (by norm_num),
    Nat.div_eq_of_lt hb, Nat.add_zero]

/-! ### Byte-compare loops succeed on equal byte ranges -/

theorem cmpFwd_of_eq (st : Cont) (n : Nat) :
    ∀ i j : Nat, (∀ k, k < n → read8 st ((i + k : Nat) : Int) = read8 st ((j + k : Nat) : Int)) →
    cmpFwd st n i j = true := by
  induction n with
  | zero => intro i j _; rfl
  | succ m ih =>
    intro i j h
    show (decide (read8 st (i : Int) = read8 st (j : Int)) && cmpFwd st m (i + 1) (j + 1)) = true
    rw [Bool.and_eq_true, decide_eq_true_eq]
    constructor
    · have h0 := h 0 (by omega)
      simpa using h0
    · exact ih (i + 1) (j + 1) (fun k hk => by
        have := h (k + 1) (by omega)
        rw [show i + (k + 1) = i + 1 + k by omega, show j + (k + 1) = j + 1 + k by omega] at this
        exact this)

theorem cmpBack_of_eq (st : Cont) (n : Nat) :
    ∀ i j : Int, (∀ k : Nat, k < n → read8 st (i - 1 - k) = read8 st (j - 1 - k)) →
    cmpBack st n i j = true := by
  induction n with
  | zero => intro i j _; rfl
  | succ m ih =>
    intro i j h
    show (decide (read8 st (i - 1) = read8 st (j - 1)) && cmpBack st m (i - 1) (j - 1)) = true
    rw [Bool.and_eq_true, decide_eq_true_eq]
    constructor
    · have h0 := h 0 (by omega)
      simpa using h0
    · exact ih (i - 1) (j - 1) (fun k hk => by
        have := h (k + 1) (by omega)
        rw [show i - 1 - (k + 1 : Nat) = i - 1 - 1 - k by push_cast; ring,
          show j - 1 - (k + 1 : Nat) = j - 1 - 1 - k by push_cast; ring] at this
        exact this)

/-! ### The parametric single-insert scenario

A fresh container (no options, rejecting extra handler) receives one
pattern: the characters l ++ r are interned, a trie handle is created, the
pattern is inserted with pivot |l| via add, the returned boundary cell is
marked terminal with extra 1, and the haystack is set to l ++ r.  The
amended C3, C4 and C6 theorems are all about this family of states. -/

def p4base : Cont := init 0 0 zeroHandler

def p4store (l r : List Nat) : Nat × Cont := storeString p4base (l ++ r)

def p4trie (l r : List Nat) : Nat × Cont := createOne (p4store l r).2

def p4add (l r : List Nat) : Nat × Cont :=
  (add (p4trie l r).2 100 (p4trie l r).1 (p4store l r).1 (l ++ r).length l.length).getD
    (0, (p4trie l r).2)

def p4S (l r : List Nat) : Cont :=
  setHaystack (setExtra (p4add l r).2 (p4add l r).1 1) (l ++ r)

/-! Explicit intermediate states of the insertion, mirroring the operations
the source performs on this scenario: character interning, root-cell
creation, the root segment write of add, and the boundary/left-trie cells
of addLeft. -/

def p4chars (s : List Nat) : Cont :=
  writeBytes (write32 p4base CHAR1_SLOT (262144 + s.length)) 262144 s

def p4root (s : List Nat) : Cont :=
  write32 (write32 (write32 (write32 (p4chars s) TRIE1_SLOT 2080) 518 0) 517 0) 519 0

def p4seg (s : List Nat) (p : Nat) : Cont :=
  write32 (p4root s) 519 (toSegmentInfo 0 p s.length)

def p4b1 (s : List Nat) (p : Nat) : Cont :=
  write32 (write32 (allocateCell (p4seg s p)).2 517 520) 520 0

def p4left (s : List Nat) (p : Nat) : Cont :=
  write32 (allocateCell (p4b1 s p)).2 521 523

def p4mid (s : List Nat) (p : Nat) : Cont :=
  write32 (p4left s p) 525 (toSegmentInfo 0 0 p)

def p4fin (s : List Nat) (p : Nat) : Cont :=
  write32 (allocateCell (p4mid s p)).2 523 526

theorem p4base_size : p4base.size = 524288 := by decide

theorem p4base_trie1 : read32 p4base TRIE1_SLOT = 2068 := by decide

theorem p4base_char0 : read32 p4base CHAR0_SLOT = 262144 := by decide

theorem p4base_char1 : read32 p4base CHAR1_SLOT = 262144 := by decide

/-- allocateCell characterized by the current trie1 value. -/
theorem allocateCell_eq (st : Cont) (t : Nat) (ht : read32 st TRIE1_SLOT = t) :
    allocateCell st =
      (t / 4, write32 (write32 (write32 (write32 st TRIE1_SLOT (t + CELL_BYTE_LENGTH))
        (t / 4) 0) (t / 4 + 1) 0) (t / 4 + 2) 0) := by
  unfold allocateCell
  simp only []
  rw [ht, Nat.add_zero]

theorem p4chars_size (s : List Nat) : (p4chars s).size = 524288 := by
  unfold p4chars
  rw [writeBytes_size, write32_size, p4base_size]

theorem p4chars_trie1 (s : List Nat) : read32 (p4chars s) TRIE1_SLOT = 2068 := by
  unfold p4chars
  rw [read32_writeBytes_out _ _ _ _ (Or.inl (by decide)),
    read32_write32_ne _ _ _ _ (by decide), p4base_trie1]

theorem p4chars_char0 (s : List Nat) : read32 (p4chars s) CHAR0_SLOT = 262144 := by
  unfold p4chars
  rw [read32_writeBytes_out _ _ _ _ (Or.inl (by decide)),
    read32_write32_ne _ _ _ _ (by decide), p4base_char0]

theorem p4chars_char1 (s : List Nat) (hn : s.length ≤ 510) :
    read32 (p4chars s) CHAR1_SLOT = 262144 + s.length := by
  unfold p4chars
  rw [read32_writeBytes_out _ _ _ _ (Or.inl (by decide)),
    read32_write32_self _ _ _ (by rw [p4base_size]; decide)]
  have h32 : (2 : Nat) ^ 32 = 4294967296 := by norm_num
  exact Nat.mod_eq_of_lt (by omega)

theorem p4chars_mem_char (s : List Nat) (k : Nat) (hk : k < s.length)
    (hn : s.length ≤ 510) : (p4chars s).mem (262144 + k) = s.getD k 0 % 256 := by
  unfold p4chars
  exact writeBytes_mem_in _ _ _ _ hk (by rw [write32_size, p4base_size]; omega)

theorem p4store_eq (l r : List Nat) (hn : (l ++ r).length ≤ 510) :
    p4store l r = (0, p4chars (l ++ r)) := by
  unfold p4store storeString
  simp only []
  rw [p4base_size, p4base_char1, if_neg (by omega)]
  rw [p4base_char1]
  unfold p4chars
  rw [read32_writeBytes_out _ _ _ _ (Or.inl (by decide)),
    read32_write32_ne _ _ _ _ (by decide), p4base_char0]

theorem p4root_char0 (s : List Nat) : read32 (p4root s) CHAR0_SLOT = 262144 := by
  unfold p4root
  rw [read32_write32_ne _ _ _ _ (by decide), read32_write32_ne _ _ _ _ (by decide),
    read32_write32_ne _ _ _ _ (by decide), read32_write32_ne _ _ _ _ (by decide),
    p4chars_char0]

theorem p4root_trie1 (s : List Nat) : read32 (p4root s) TRIE1_SLOT = 2080 := by
  unfold p4root
  rw [read32_write32_ne _ _ _ _ (by decide), read32_write32_ne _ _ _ _ (by decide),
    read32_write32_ne _ _ _ _ (by decide),
    read32_write32_self _ _ _ (by rw [p4chars_size]; decide)]
  decide

theorem p4trie_eq (l r : List Nat) (hn : (l ++ r).length ≤ 510) :
    p4trie l r = (517, p4root (l ++ r)) := by
  unfold p4trie
  rw [p4store_eq l r hn]
  show createOne (p4chars (l ++ r)) = _
  unfold createOne
  simp only []
  rw [p4chars_char0, p4chars_trie1, if_neg (by decide)]
  rw [p4chars_trie1]
  rfl

theorem CELL_BYTE_LENGTH_eq : CELL_BYTE_LENGTH = 12 := rfl

/-- All the intermediate states of the scenario share the byte length of
p4chars; this discharges the in-range side conditions of the 32-bit writes. -/
theorem hsz_all (s : List Nat) (i : Nat) (hi : 4 * i + 3 < 524288) :
    4 * i + 3 < (p4chars s).size := by
  rw [p4chars_size]; exact hi

theorem p4root_seg (s : List Nat) : read32 (p4root s) 519 = 0 := by
  unfold p4root
  rw [read32_write32_self _ _ _ (by exact hsz_all s _ (by decide))]
  decide

theorem p4seg_trie1 (s : List Nat) (p : Nat) : read32 (p4seg s p) TRIE1_SLOT = 2080 := by
  unfold p4seg
  rw [read32_write32_ne _ _ _ _ (by decide), p4root_trie1]

theorem p4seg_and (s : List Nat) (p : Nat) : read32 (p4seg s p) 517 = 0 := by
  unfold p4seg p4root
  rw [read32_write32_ne _ _ _ _ (by decide), read32_write32_ne _ _ _ _ (by decide),
    read32_write32_self _ _ _ (by exact hsz_all s _ (by decide))]
  decide

theorem add_p4 (s : List Nat) (p : Nat) (hn0 : s.length ≠ 0) :
    add (p4root s) 100 517 0 s.length p = addLeft (p4seg s p) 100 517 0 p := by
  unfold add
  simp only []
  rw [if_neg hn0]
  have hg : (if read32 (p4root s) CHAR0_SLOT - read32 (p4root s) TRIE1_SLOT <
        MIN_FREE_CELL_BYTE_LENGTH then growBuf (p4root s) MIN_FREE_CELL_BYTE_LENGTH 0
      else p4root s) = p4root s :=
    if_neg (by rw [p4root_char0, p4root_trie1]; decide)
  rw [hg, show 517 + SEGMENT_INFO = 519 from rfl, p4root_seg, if_pos rfl]
  rfl

theorem p4b1_extra (s : List Nat) (p : Nat) : read32 (p4b1 s p) 522 = 0 := by
  unfold p4b1
  rw [read32_write32_ne _ _ _ _ (by decide), read32_write32_ne _ _ _ _ (by decide),
    allocateCell_eq (p4seg s p) 2080 (p4seg_trie1 s p)]
  show read32 (write32 (write32 (write32 (write32 (p4seg s p) TRIE1_SLOT
    (2080 + CELL_BYTE_LENGTH)) (2080 / 4) 0) (2080 / 4 + 1) 0) (2080 / 4 + 2) 0) 522 = 0
  rw [show (2080 : Nat) / 4 + 2 = 522 from rfl]
  rw [read32_write32_self _ _ _ (by exact hsz_all s _ (by decide))]
  decide

theorem p4b1_alt (s : List Nat) (p : Nat) : read32 (p4b1 s p) 521 = 0 := by
  unfold p4b1
  rw [read32_write32_ne _ _ _ _ (by decide), read32_write32_ne _ _ _ _ (by decide),
    allocateCell_eq (p4seg s p) 2080 (p4seg_trie1 s p)]
  show read32 (write32 (write32 (write32 (write32 (p4seg s p) TRIE1_SLOT
    (2080 + CELL_BYTE_LENGTH)) (2080 / 4) 0) (2080 / 4 + 1) 0) (2080 / 4 + 2) 0) 521 = 0
  rw [show (2080 : Nat) / 4 + 2 = 522 from rfl, read32_write32_ne _ _ _ _ (by decide),
    show (2080 : Nat) / 4 + 1 = 521 from rfl,
    read32_write32_self _ _ _ (by exact hsz_all s _ (by decide))]
  decide

theorem p4b1_trie1 (s : List Nat) (p : Nat) : read32 (p4b1 s p) TRIE1_SLOT = 2092 := by
  unfold p4b1
  rw [read32_write32_ne _ _ _ _ (by decide), read32_write32_ne _ _ _ _ (by decide),
    allocateCell_eq (p4seg s p) 2080 (p4seg_trie1 s p)]
  show read32 (write32 (write32 (write32 (write32 (p4seg s p) TRIE1_SLOT
    (2080 + CELL_BYTE_LENGTH)) (2080 / 4) 0) (2080 / 4 + 1) 0) (2080 / 4 + 2) 0)
    TRIE1_SLOT = 2092
  rw [show (2080 : Nat) / 4 + 2 = 522 from rfl, read32_write32_ne _ _ _ _ (by decide),
    show (2080 : Nat) / 4 + 1 = 521 from rfl, read32_write32_ne _ _ _ _ (by decide),
    show (2080 : Nat) / 4 = 520 from rfl, read32_write32_ne _ _ _ _ (by decide),
    read32_write32_self _ _ _ (by exact hsz_all s _ (by decide))]
  decide

theorem addLeft_p4_zero (s : List Nat) :
    addLeft (p4seg s 0) 100 517 0 0 = some (520, p4b1 s 0) := by
  unfold addLeft
  simp only []
  rw [show 517 + CELL_AND = 517 from rfl, p4seg_and]
  rw [if_pos (Or.inl rfl)]
  dsimp only
  rw [if_pos ⟨Or.inl rfl, by decide⟩]
  have hI : (allocateCell (p4seg s 0)).1 = 520 := by
    rw [allocateCell_eq (p4seg s 0) 2080 (p4seg_trie1 s 0)]
  rw [hI]
  rfl

theorem p4seg_size (s : List Nat) (p : Nat) : (p4seg s p).size = 524288 := by
  unfold p4seg p4root
  rw [write32_size, write32_size, write32_size, write32_size, write32_size, p4chars_size]

theorem p4b1_size (s : List Nat) (p : Nat) : (p4b1 s p).size = 524288 := by
  unfold p4b1
  rw [write32_size, write32_size, allocateCell_eq (p4seg s p) 2080 (p4seg_trie1 s p)]
  show (write32 (write32 (write32 (write32 (p4seg s p) TRIE1_SLOT
    (2080 + CELL_BYTE_LENGTH)) (2080 / 4) 0) (2080 / 4 + 1) 0) (2080 / 4 + 2) 0).size = 524288
  rw [write32_size, write32_size, write32_size, write32_size, p4seg_size]

theorem p4left_size (s : List Nat) (p : Nat) : (p4left s p).size = 524288 := by
  unfold p4left
  rw [write32_size, allocateCell_eq (p4b1 s p) 2092 (p4b1_trie1 s p)]
  show (write32 (write32 (write32 (write32 (p4b1 s p) TRIE1_SLOT
    (2092 + CELL_BYTE_LENGTH)) (2092 / 4) 0) (2092 / 4 + 1) 0) (2092 / 4 + 2) 0).size = 524288
  rw [write32_size, write32_size, write32_size, write32_size, p4b1_size]

theorem p4mid_size (s : List Nat) (p : Nat) : (p4mid s p).size = 524288 := by
  unfold p4mid
  rw [write32_size, p4left_size]

theorem p4left_seg (s : List Nat) (p : Nat) : read32 (p4left s p) 525 = 0 := by
  unfold p4left
  rw [read32_write32_ne _ _ _ _ (by decide),
    allocateCell_eq (p4b1 s p) 2092 (p4b1_trie1 s p)]
  show read32 (write32 (write32 (write32 (write32 (p4b1 s p) TRIE1_SLOT
    (2092 + CELL_BYTE_LENGTH)) (2092 / 4) 0) (2092 / 4 + 1) 0) (2092 / 4 + 2) 0) 525 = 0
  rw [show (2092 : Nat) / 4 + 2 = 525 from rfl,
    read32_write32_self _ _ _ (by
      rw [write32_size, write32_size, write32_size, p4b1_size]; decide)]
  decide

theorem p4mid_trie1 (s : List Nat) (p : Nat) : read32 (p4mid s p) TRIE1_SLOT = 2104 := by
  unfold p4mid p4left
  rw [read32_write32_ne _ _ _ _ (by decide), read32_write32_ne _ _ _ _ (by decide),
    allocateCell_eq (p4b1 s p) 2092 (p4b1_trie1 s p)]
  show read32 (write32 (write32 (write32 (write32 (p4b1 s p) TRIE1_SLOT
    (2092 + CELL_BYTE_LENGTH)) (2092 / 4) 0) (2092 / 4 + 1) 0) (2092 / 4 + 2) 0)
    TRIE1_SLOT = 2104
  rw [show (2092 : Nat) / 4 + 2 = 525 from rfl, read32_write32_ne _ _ _ _ (by decide),
    show (2092 : Nat) / 4 + 1 = 524 from rfl, read32_write32_ne _ _ _ _ (by decide),
    show (2092 : Nat) / 4 = 523 from rfl, read32_write32_ne _ _ _ _ (by decide),
    read32_write32_self _ _ _ (by rw [p4b1_size]; decide)]
  decide

theorem addLeft_p4_pos (s : List Nat) (p : Nat) (hp : p ≠ 0) :
    addLeft (p4seg s p) 100 517 0 p = some (526, p4fin s p) := by
  unfold addLeft
  simp only []
  rw [show 517 + CELL_AND = 517 from rfl, p4seg_and]
  rw [if_pos (Or.inl rfl)]
  dsimp only
  rw [if_neg (fun h => hp h.2)]
  have hI : (allocateCell (p4seg s p)).1 = 520 := by
    rw [allocateCell_eq (p4seg s p) 2080 (p4seg_trie1 s p)]
  rw [hI]
  rw [show (520 : Nat) + BCELL_NEXT_AND = 520 from rfl]
  rw [show write32 (write32 (allocateCell (p4seg s p)).2 517 520)
      520 0 = p4b1 s p from rfl]
  rw [show (520 : Nat) + BCELL_EXTRA = 522 from rfl, p4b1_extra]
  rw [if_neg (by decide)]
  rw [if_neg hp]
  rw [show (520 : Nat) + BCELL_ALT_AND = 521 from rfl, p4b1_alt]
  rw [if_pos rfl]
  have hI2 : (allocateCell (p4b1 s p)).1 = 523 := by
    rw [allocateCell_eq (p4b1 s p) 2092 (p4b1_trie1 s p)]
  rw [hI2]
  rw [show write32 (allocateCell (p4b1 s p)).2 521 523 = p4left s p from rfl]
  rw [show (523 : Nat) + SEGMENT_INFO = 525 from rfl, p4left_seg, if_pos rfl]
  rw [show write32 (p4left s p) 525 (toSegmentInfo 0 0 p) = p4mid s p from rfl]
  have hI3 : (allocateCell (p4mid s p)).1 = 526 := by
    rw [allocateCell_eq (p4mid s p) 2104 (p4mid_trie1 s p)]
  rw [hI3]
  rw [show (523 : Nat) + CELL_AND = 523 from rfl]
  rw [show write32 (allocateCell (p4mid s p)).2 523 526 = p4fin s p from rfl]

/-! ### The final scenario states and their observable reads -/

def p4final (s : List Nat) (p : Nat) : Cont :=
  { writeBytes (write32 (p4fin s p) 528 1) 0 s with haystackLen := s.length }

def p4final0 (s : List Nat) : Cont :=
  { writeBytes (write32 (p4b1 s 0) 522 1) 0 s with haystackLen := s.length }

theorem p4add_eq_pos (l r : List Nat) (hn : (l ++ r).length ≤ 510) (hl : l ≠ []) :
    p4add l r = (526, p4fin (l ++ r) l.length) := by
  unfold p4add
  rw [p4trie_eq l r hn, p4store_eq l r hn]
  dsimp only
  rw [add_p4 (l ++ r) l.length (by
      rw [List.length_append]
      intro h0
      exact hl (List.length_eq_zero.mp (by omega))),
    addLeft_p4_pos (l ++ r) l.length (fun h0 => hl (List.length_eq_zero.mp h0))]
  rfl

theorem p4add_eq_zero (r : List Nat) (hn : r.length ≤ 510) (hr : r ≠ []) :
    p4add [] r = (520, p4b1 r 0) := by
  unfold p4add
  rw [p4trie_eq [] r (by simpa using hn), p4store_eq [] r (by simpa using hn)]
  dsimp only
  simp only [List.nil_append, List.length_nil]
  rw [add_p4 r 0 (fun h0 => hr (List.length_eq_zero.mp h0)), addLeft_p4_zero r]
  rfl

theorem p4S_eq_pos (l r : List Nat) (hn : (l ++ r).length ≤ 510) (hl : l ≠ []) :
    p4S l r = p4final (l ++ r) l.length := by
  unfold p4S setHaystack setExtra p4final
  rw [p4add_eq_pos l r hn hl]
  rfl

theorem p4S_eq_zero (r : List Nat) (hn : r.length ≤ 510) (hr : r ≠ []) :
    p4S [] r = p4final0 r := by
  unfold p4S setHaystack setExtra p4final0
  rw [p4add_eq_zero r hn hr]
  simp only [List.nil_append]
  rfl

theorem p4root_size (s : List Nat) : (p4root s).size = 524288 := by
  unfold p4root
  rw [write32_size, write32_size, write32_size, write32_size, p4chars_size]

theorem alloc1_size (s : List Nat) (p : Nat) :
    (allocateCell (p4seg s p)).2.size = 524288 := by
  rw [allocateCell_eq (p4seg s p) 2080 (p4seg_trie1 s p)]
  show (write32 (write32 (write32 (write32 (p4seg s p) TRIE1_SLOT
    (2080 + CELL_BYTE_LENGTH)) (2080 / 4) 0) (2080 / 4 + 1) 0) (2080 / 4 + 2) 0).size = 524288
  rw [write32_size, write32_size, write32_size, write32_size, p4seg_size]

theorem alloc2_size (s : List Nat) (p : Nat) :
    (allocateCell (p4b1 s p)).2.size = 524288 := by
  rw [allocateCell_eq (p4b1 s p) 2092 (p4b1_trie1 s p)]
  show (write32 (write32 (write32 (write32 (p4b1 s p) TRIE1_SLOT
    (2092 + CELL_BYTE_LENGTH)) (2092 / 4) 0) (2092 / 4 + 1) 0) (2092 / 4 + 2) 0).size = 524288
  rw [write32_size, write32_size, write32_size, write32_size, p4b1_size]

theorem alloc3_size (s : List Nat) (p : Nat) :
    (allocateCell (p4mid s p)).2.size = 524288 := by
  rw [allocateCell_eq (p4mid s p) 2104 (p4mid_trie1 s p)]
  show (write32 (write32 (write32 (write32 (p4mid s p) TRIE1_SLOT
    (2104 + CELL_BYTE_LENGTH)) (2104 / 4) 0) (2104 / 4 + 1) 0) (2104 / 4 + 2) 0).size = 524288
  rw [write32_size, write32_size, write32_size, write32_size, p4mid_size]

theorem p4fin_size (s : List Nat) (p : Nat) : (p4fin s p).size = 524288 := by
  unfold p4fin
  rw [write32_size, alloc3_size]

theorem p4final_size (s : List Nat) (p : Nat) : (p4final s p).size = 524288 := by
  show (writeBytes (write32 (p4fin s p) 528 1) 0 s).size = 524288
  rw [writeBytes_size, write32_size, p4fin_size]

theorem p4final0_size (s : List Nat) : (p4final0 s).size = 524288 := by
  show (writeBytes (write32 (p4b1 s 0) 522 1) 0 s).size = 524288
  rw [writeBytes_size, write32_size, p4b1_size]

theorem mod32_idem (x : Nat) : x % 2 ^ 32 % 2 ^ 32 = x % 2 ^ 32 :=
  Nat.mod_mod_of_dvd x dvd_rfl

theorem toSegmentInfo_mod (aL l r : Nat) :
    toSegmentInfo aL l r % 2 ^ 32 = toSegmentInfo aL l r := by
  unfold toSegmentInfo
  exact mod32_idem _

/-! Reads on p4b1 (the trie state of a pivot-0 insert, before the extra and
haystack writes). -/

theorem p4b1_and (s : List Nat) (p : Nat) : read32 (p4b1 s p) 517 = 520 := by
  unfold p4b1
  rw [read32_write32_ne _ _ _ _ (by decide),
    read32_write32_self _ _ _ (by rw [alloc1_size]; decide)]
  decide

theorem p4b1_seg (s : List Nat) (p : Nat) :
    read32 (p4b1 s p) 519 = toSegmentInfo 0 p s.length := by
  unfold p4b1
  rw [read32_write32_ne _ _ _ _ (by decide), read32_write32_ne _ _ _ _ (by decide),
    allocateCell_eq (p4seg s p) 2080 (p4seg_trie1 s p)]
  show read32 (write32 (write32 (write32 (write32 (p4seg s p) TRIE1_SLOT
    (2080 + CELL_BYTE_LENGTH)) (2080 / 4) 0) (2080 / 4 + 1) 0) (2080 / 4 + 2) 0) 519 =
    toSegmentInfo 0 p s.length
  rw [show (2080 : Nat) / 4 + 2 = 522 from rfl, read32_write32_ne _ _ _ _ (by decide),
    show (2080 : Nat) / 4 + 1 = 521 from rfl, read32_write32_ne _ _ _ _ (by decide),
    show (2080 : Nat) / 4 = 520 from rfl, read32_write32_ne _ _ _ _ (by decide),
    read32_write32_ne _ _ _ _ (by decide)]
  unfold p4seg
  rw [read32_write32_self _ _ _ (by rw [p4root_size]; decide)]
  exact toSegmentInfo_mod 0 p s.length

theorem p4b1_char0 (s : List Nat) (p : Nat) : read32 (p4b1 s p) 515 = 262144 := by
  unfold p4b1
  rw [read32_write32_ne _ _ _ _ (by decide), read32_write32_ne _ _ _ _ (by decide),
    allocateCell_eq (p4seg s p) 2080 (p4seg_trie1 s p)]
  show read32 (write32 (write32 (write32 (write32 (p4seg s p) TRIE1_SLOT
    (2080 + CELL_BYTE_LENGTH)) (2080 / 4) 0) (2080 / 4 + 1) 0) (2080 / 4 + 2) 0) 515 = 262144
  rw [show (2080 : Nat) / 4 + 2 = 522 from rfl, read32_write32_ne _ _ _ _ (by decide),
    show (2080 : Nat) / 4 + 1 = 521 from rfl, read32_write32_ne _ _ _ _ (by decide),
    show (2080 : Nat) / 4 = 520 from rfl, read32_write32_ne _ _ _ _ (by decide),
    read32_write32_ne _ _ _ _ (by decide)]
  unfold p4seg
  rw [read32_write32_ne _ _ _ _ (by decide)]
  exact p4root_char0 s

/-! Reads on p4fin (the trie state of a nonzero-pivot insert). -/

theorem p4fin_to_p4b1 (s : List Nat) (p j : Nat)
    (hj : j = 515 ∨ j = 517 ∨ j = 519 ∨ j = 522) :
    read32 (p4fin s p) j = read32 (p4b1 s p) j := by
  unfold p4fin
  rw [read32_write32_ne _ _ _ _ (by omega),
    allocateCell_eq (p4mid s p) 2104 (p4mid_trie1 s p)]
  show read32 (write32 (write32 (write32 (write32 (p4mid s p) TRIE1_SLOT
    (2104 + CELL_BYTE_LENGTH)) (2104 / 4) 0) (2104 / 4 + 1) 0) (2104 / 4 + 2) 0) j = _
  rw [show (2104 : Nat) / 4 + 2 = 528 from rfl, show (2104 : Nat) / 4 + 1 = 527 from rfl,
    show (2104 : Nat) / 4 = 526 from rfl, TRIE1_SLOT_eq]
  rw [read32_write32_ne _ _ _ _ (by omega), read32_write32_ne _ _ _ _ (by omega),
    read32_write32_ne _ _ _ _ (by omega), read32_write32_ne _ _ _ _ (by omega)]
  unfold p4mid
  rw [read32_write32_ne _ _ _ _ (by omega)]
  unfold p4left
  rw [read32_write32_ne _ _ _ _ (by omega),
    allocateCell_eq (p4b1 s p) 2092 (p4b1_trie1 s p)]
  show read32 (write32 (write32 (write32 (write32 (p4b1 s p) TRIE1_SLOT
    (2092 + CELL_BYTE_LENGTH)) (2092 / 4) 0) (2092 / 4 + 1) 0) (2092 / 4 + 2) 0) j = _
  rw [show (2092 : Nat) / 4 + 2 = 525 from rfl, show (2092 : Nat) / 4 + 1 = 524 from rfl,
    show (2092 : Nat) / 4 = 523 from rfl, TRIE1_SLOT_eq]
  rw [read32_write32_ne _ _ _ _ (by omega), read32_write32_ne _ _ _ _ (by omega),
    read32_write32_ne _ _ _ _ (by omega), read32_write32_ne _ _ _ _ (by omega)]

theorem p4fin_alt (s : List Nat) (p : Nat) : read32 (p4fin s p) 521 = 523 := by
  unfold p4fin
  rw [read32_write32_ne _ _ _ _ (by decide),
    allocateCell_eq (p4mid s p) 2104 (p4mid_trie1 s p)]
  show read32 (write32 (write32 (write32 (write32 (p4mid s p) TRIE1_SLOT
    (2104 + CELL_BYTE_LENGTH)) (2104 / 4) 0) (2104 / 4 + 1) 0) (2104 / 4 + 2) 0) 521 = 523
  rw [show (2104 : Nat) / 4 + 2 = 528 from rfl, read32_write32_ne _ _ _ _ (by decide),
    show (2104 : Nat) / 4 + 1 = 527 from rfl, read32_write32_ne _ _ _ _ (by decide),
    show (2104 : Nat) / 4 = 526 from rfl, read32_write32_ne _ _ _ _ (by decide),
    read32_write32_ne _ _ _ _ (by decide)]
  unfold p4mid
  rw [read32_write32_ne _ _ _ _ (by decide)]
  unfold p4left
  rw [read32_write32_self _ _ _ (by rw [alloc2_size]; decide)]
  decide

theorem p4fin_leftseg (s : List Nat) (p : Nat) :
    read32 (p4fin s p) 525 = toSegmentInfo 0 0 p := by
  unfold p4fin
  rw [read32_write32_ne _ _ _ _ (by decide),
    allocateCell_eq (p4mid s p) 2104 (p4mid_trie1 s p)]
  show read32 (write32 (write32 (write32 (write32 (p4mid s p) TRIE1_SLOT
    (2104 + CELL_BYTE_LENGTH)) (2104 / 4) 0) (2104 / 4 + 1) 0) (2104 / 4 + 2) 0) 525 =
    toSegmentInfo 0 0 p
  rw [show (2104 : Nat) / 4 + 2 = 528 from rfl, read32_write32_ne _ _ _ _ (by decide),
    show (2104 : Nat) / 4 + 1 = 527 from rfl, read32_write32_ne _ _ _ _ (by decide),
    show (2104 : Nat) / 4 = 526 from rfl, read32_write32_ne _ _ _ _ (by decide),
    read32_write32_ne _ _ _ _ (by decide)]
  unfold p4mid
  rw [read32_write32_self _ _ _ (by rw [p4left_size]; decide)]
  exact toSegmentInfo_mod 0 0 p

theorem p4fin_leftand (s : List Nat) (p : Nat) : read32 (p4fin s p) 523 = 526 := by
  unfold p4fin
  rw [read32_write32_self _ _ _ (by rw [alloc3_size]; decide)]
  decide

/-! Reads on the final states -/

theorem p4final_haystackLen (s : List Nat) (p : Nat) :
    (p4final s p).haystackLen = s.length := rfl

theorem p4final0_haystackLen (s : List Nat) :
    (p4final0 s).haystackLen = s.length := rfl

theorem p4final_read32_cell (s : List Nat) (p j : Nat) (hn : s.length ≤ 510)
    (hj : 513 ≤ j) (hj2 : j ≠ 528) :
    read32 (p4final s p) j = read32 (p4fin s p) j := by
  show read32 (writeBytes (write32 (p4fin s p) 528 1) 0 s) j = _
  rw [read32_writeBytes_out _ _ _ _ (by omega), read32_write32_ne _ _ _ _ hj2]

theorem p4final0_read32_cell (s : List Nat) (j : Nat) (hn : s.length ≤ 510)
    (hj : 513 ≤ j) (hj2 : j ≠ 522) :
    read32 (p4final0 s) j = read32 (p4b1 s 0) j := by
  show read32 (writeBytes (write32 (p4b1 s 0) 522 1) 0 s) j = _
  rw [read32_writeBytes_out _ _ _ _ (by omega), read32_write32_ne _ _ _ _ hj2]

theorem p4final_char0 (s : List Nat) (p : Nat) (hn : s.length ≤ 510) :
    read32 (p4final s p) 515 = 262144 := by
  rw [p4final_read32_cell s p 515 hn (by decide) (by decide),
    p4fin_to_p4b1 s p 515 (Or.inl rfl), p4b1_char0]

theorem p4final_rootseg (s : List Nat) (p : Nat) (hn : s.length ≤ 510) :
    read32 (p4final s p) 519 = toSegmentInfo 0 p s.length := by
  rw [p4final_read32_cell s p 519 hn (by decide) (by decide),
    p4fin_to_p4b1 s p 519 (Or.inr (Or.inr (Or.inl rfl))), p4b1_seg]

theorem p4final_rootand (s : List Nat) (p : Nat) (hn : s.length ≤ 510) :
    read32 (p4final s p) 517 = 520 := by
  rw [p4final_read32_cell s p 517 hn (by decide) (by decide),
    p4fin_to_p4b1 s p 517 (Or.inr (Or.inl rfl)), p4b1_and]

theorem p4final_b1extra (s : List Nat) (p : Nat) (hn : s.length ≤ 510) :
    read32 (p4final s p) 522 = 0 := by
  rw [p4final_read32_cell s p 522 hn (by decide) (by decide),
    p4fin_to_p4b1 s p 522 (Or.inr (Or.inr (Or.inr rfl))), p4b1_extra]

theorem p4final_b1alt (s : List Nat) (p : Nat) (hn : s.length ≤ 510) :
    read32 (p4final s p) 521 = 523 := by
  rw [p4final_read32_cell s p 521 hn (by decide) (by decide), p4fin_alt]

theorem p4final_leftseg (s : List Nat) (p : Nat) (hn : s.length ≤ 510) :
    read32 (p4final s p) 525 = toSegmentInfo 0 0 p := by
  rw [p4final_read32_cell s p 525 hn (by decide) (by decide), p4fin_leftseg]

theorem p4final_leftand (s : List Nat) (p : Nat) (hn : s.length ≤ 510) :
    read32 (p4final s p) 523 = 526 := by
  rw [p4final_read32_cell s p 523 hn (by decide) (by decide), p4fin_leftand]

theorem p4final_b2extra (s : List Nat) (p : Nat) (hn : s.length ≤ 510) :
    read32 (p4final s p) 528 = 1 := by
  show read32 (writeBytes (write32 (p4fin s p) 528 1) 0 s) 528 = 1
  rw [read32_writeBytes_out _ _ _ _ (by omega),
    read32_write32_self _ _ _ (by rw [p4fin_size]; decide)]
  decide

theorem p4final0_char0 (s : List Nat) (hn : s.length ≤ 510) :
    read32 (p4final0 s) 515 = 262144 := by
  rw [p4final0_read32_cell s 515 hn (by decide) (by decide), p4b1_char0]

theorem p4final0_rootseg (s : List Nat) (hn : s.length ≤ 510) :
    read32 (p4final0 s) 519 = toSegmentInfo 0 0 s.length := by
  rw [p4final0_read32_cell s 519 hn (by decide) (by decide), p4b1_seg]

theorem p4final0_rootand (s : List Nat) (hn : s.length ≤ 510) :
    read32 (p4final0 s) 517 = 520 := by
  rw [p4final0_read32_cell s 517 hn (by decide) (by decide), p4b1_and]

theorem p4final0_b1extra (s : List Nat) (hn : s.length ≤ 510) :
    read32 (p4final0 s) 522 = 1 := by
  show read32 (writeBytes (write32 (p4b1 s 0) 522 1) 0 s) 522 = 1
  rw [read32_writeBytes_out _ _ _ _ (by omega),
    read32_write32_self _ _ _ (by rw [p4b1_size]; decide)]
  decide

/-! Byte reads on the final states: the haystack window holds the pattern
bytes, and so does the character region at char0. -/

theorem p4b1_mem_hi (s : List Nat) (p q : Nat) (hq : 2120 ≤ q) :
    (p4b1 s p).mem q = (p4chars s).mem q := by
  unfold p4b1
  rw [write32_mem_out _ _ _ _ (by omega), write32_mem_out _ _ _ _ (by omega),
    allocateCell_eq (p4seg s p) 2080 (p4seg_trie1 s p)]
  show (write32 (write32 (write32 (write32 (p4seg s p) TRIE1_SLOT
    (2080 + CELL_BYTE_LENGTH)) (2080 / 4) 0) (2080 / 4 + 1) 0) (2080 / 4 + 2) 0).mem q = _
  rw [show (2080 : Nat) / 4 + 2 = 522 from rfl, show (2080 : Nat) / 4 + 1 = 521 from rfl,
    show (2080 : Nat) / 4 = 520 from rfl]
  rw [write32_mem_out _ _ _ _ (by omega), write32_mem_out _ _ _ _ (by omega),
    write32_mem_out _ _ _ _ (by omega),
    write32_mem_out _ _ _ _ (by rw [TRIE1_SLOT_eq]; omega)]
  unfold p4seg
  rw [write32_mem_out _ _ _ _ (by omega)]
  unfold p4root
  rw [write32_mem_out _ _ _ _ (by omega), write32_mem_out _ _ _ _ (by omega),
    write32_mem_out _ _ _ _ (by omega),
    write32_mem_out _ _ _ _ (by rw [TRIE1_SLOT_eq]; omega)]

theorem p4fin_mem_hi (s : List Nat) (p q : Nat) (hq : 2120 ≤ q) :
    (p4fin s p).mem q = (p4chars s).mem q := by
  unfold p4fin
  rw [write32_mem_out _ _ _ _ (by omega),
    allocateCell_eq (p4mid s p) 2104 (p4mid_trie1 s p)]
  show (write32 (write32 (write32 (write32 (p4mid s p) TRIE1_SLOT
    (2104 + CELL_BYTE_LENGTH)) (2104 / 4) 0) (2104 / 4 + 1) 0) (2104 / 4 + 2) 0).mem q = _
  rw [show (2104 : Nat) / 4 + 2 = 528 from rfl, show (2104 : Nat) / 4 + 1 = 527 from rfl,
    show (2104 : Nat) / 4 = 526 from rfl]
  rw [write32_mem_out _ _ _ _ (by omega), write32_mem_out _ _ _ _ (by omega),
    write32_mem_out _ _ _ _ (by omega),
    write32_mem_out _ _ _ _ (by rw [TRIE1_SLOT_eq]; omega)]
  unfold p4mid
  rw [write32_mem_out _ _ _ _ (by omega)]
  unfold p4left
  rw [write32_mem_out _ _ _ _ (by omega),
    allocateCell_eq (p4b1 s p) 2092 (p4b1_trie1 s p)]
  show (write32 (write32 (write32 (write32 (p4b1 s p) TRIE1_SLOT
    (2092 + CELL_BYTE_LENGTH)) (2092 / 4) 0) (2092 / 4 + 1) 0) (2092 / 4 + 2) 0).mem q = _
  rw [show (2092 : Nat) / 4 + 2 = 525 from rfl, show (2092 : Nat) / 4 + 1 = 524 from rfl,
    show (2092 : Nat) / 4 = 523 from rfl]
  rw [write32_mem_out _ _ _ _ (by omega), write32_mem_out _ _ _ _ (by omega),
    write32_mem_out _ _ _ _ (by omega),
    write32_mem_out _ _ _ _ (by rw [TRIE1_SLOT_eq]; omega)]
  exact p4b1_mem_hi s p q hq

theorem p4final_read8_hay (s : List Nat) (p k : Nat) (hk : k < s.length)
    (hn : s.length ≤ 510) :
    read8 (p4final s p) (k : Int) = some (s.getD k 0 % 256) := by
  rw [read8_eq_mem _ _ (by rw [p4final_size]; omega)]
  show some ((writeBytes (write32 (p4fin s p) 528 1) 0 s).mem k) = _
  have h := writeBytes_mem_in (write32 (p4fin s p) 528 1) 0 s k hk
    (by rw [write32_size, p4fin_size]; omega)
  rw [Nat.zero_add] at h
  rw [h]

theorem p4final_read8_char (s : List Nat) (p k : Nat) (hk : k < s.length)
    (hn : s.length ≤ 510) :
    read8 (p4final s p) ((262144 + k : Nat) : Int) = some (s.getD k 0 % 256) := by
  rw [read8_eq_mem _ _ (by rw [p4final_size]; omega)]
  show some ((writeBytes (write32 (p4fin s p) 528 1) 0 s).mem (262144 + k)) = _
  rw [writeBytes_mem_out _ _ _ _ (by omega), write32_mem_out _ _ _ _ (by omega),
    p4fin_mem_hi s p _ (by omega), p4chars_mem_char s k hk hn]

theorem p4final0_read8_hay (s : List Nat) (k : Nat) (hk : k < s.length)
    (hn : s.length ≤ 510) :
    read8 (p4final0 s) (k : Int) = some (s.getD k 0 % 256) := by
  rw [read8_eq_mem _ _ (by rw [p4final0_size]; omega)]
  show some ((writeBytes (write32 (p4b1 s 0) 522 1) 0 s).mem k) = _
  have h := writeBytes_mem_in (write32 (p4b1 s 0) 522 1) 0 s k hk
    (by rw [write32_size, p4b1_size]; omega)
  rw [Nat.zero_add] at h
  rw [h]

theorem p4final0_read8_char (s : List Nat) (k : Nat) (hk : k < s.length)
    (hn : s.length ≤ 510) :
    read8 (p4final0 s) ((262144 + k : Nat) : Int) = some (s.getD k 0 % 256) := by
  rw [read8_eq_mem _ _ (by rw [p4final0_size]; omega)]
  show some ((writeBytes (write32 (p4b1 s 0) 522 1) 0 s).mem (262144 + k)) = _
  rw [writeBytes_mem_out _ _ _ _ (by omega), write32_mem_out _ _ _ _ (by omega),
    p4b1_mem_hi s 0 _ (by omega), p4chars_mem_char s k hk hn]

/-! ### Evaluation of matches on the single-insert states -/

theorem matchesLeftStep_p4 (s : List Nat) (p : Nat) (hn : s.length ≤ 510)
    (R : Nat → Int → Option (Option MRes)) :
    matchesLeftStep (p4final s p) s.length R 523 0 = some (some (0, s.length, -1)) := by
  unfold matchesLeftStep
  simp only []
  rw [show (523 : Nat) + CELL_AND = 523 from rfl, p4final_leftand s p hn]
  rw [show (526 : Nat) + BCELL_EXTRA = 528 from rfl, p4final_b2extra s p hn]
  rw [if_pos (by decide : (1 : Nat) ≤ BCELL_EXTRA_MAX)]
  rw [if_pos (by decide : (1 : Nat) ≠ 0)]
  rw [if_pos rfl]
  rw [if_pos (by decide : (-1 : Int) ≠ 0)]

theorem matchesStep_p4final0 (s : List Nat) (hn : s.length ≤ 510) (fuel : Nat)
    (R : Nat → Nat → Option (Option MRes)) :
    matchesStep (p4final0 s) 262144 0 fuel s.length R 517 s.length =
      some (some (0, s.length, -1)) := by
  unfold matchesStep
  simp only []
  rw [show (517 : Nat) + CELL_AND = 517 from rfl, p4final0_rootand s hn]
  rw [show (520 : Nat) + BCELL_EXTRA = 522 from rfl, p4final0_b1extra s hn]
  rw [if_pos (by decide : (1 : Nat) ≤ BCELL_EXTRA_MAX)]
  rw [if_pos (by decide : (1 : Nat) ≠ 0)]
  rw [if_pos rfl]
  rw [if_pos (by decide : (-1 : Int) ≠ 0)]
  rfl

theorem matchesLeftGo_p4 (s : List Nat) (p : Nat) (hp : 1 ≤ p) (hplt : p < s.length)
    (hn : s.length ≤ 510) (hp255 : p ≤ 255) (fuel : Nat) :
    matchesLeftGo (p4final s p) 262144 s.length (fuel + 1) 523 ((p : Nat) : Int) =
      some (some (0, s.length, -1)) := by
  simp only [matchesLeftGo]
  rw [show ((p : Nat) : Int) - 1 = ((p - 1 : Nat) : Int) by omega]
  rw [p4final_read8_hay s p (p - 1) (by omega) hn]
  have hv : read32 (p4final s p) 525 = p * 2 ^ 24 + 0 := by
    rw [p4final_leftseg s p hn, toSegmentInfo_eq 0 0 p (by omega) (by decide)]
    omega
  have hfind : matchesLeftFind (p4final s p) 262144 (some (s.getD (p - 1) 0 % 256))
      (fuel + 1) 523 = some (some (523, p * 2 ^ 24 + 0, p - 1)) := by
    simp only [matchesLeftFind]
    rw [show (523 : Nat) + SEGMENT_INFO = 525 from rfl, hv]
    rw [segLow p 0 (by decide), segHigh p 0 (by decide)]
    rw [show (262144 : Nat) + 0 + (p - 1) = 262144 + (p - 1) from rfl]
    rw [p4final_read8_char s p (p - 1) (by omega) hn]
    rw [if_pos rfl]
  rw [hfind]
  dsimp only
  rw [segLow p 0 (by decide)]
  by_cases hp2 : p - 1 = 0
  · rw [if_neg (by omega)]
    rw [show ((p - 1 : Nat) : Int) = (0 : Int) by omega]
    exact matchesLeftStep_p4 s p hn _
  · rw [if_pos hp2]
    rw [show ((p - 1 : Nat) : Int) - ((p - 1 : Nat) : Int) = (0 : Int) by omega]
    rw [if_neg (by decide : ¬((0 : Int) < 0))]
    have hcmp : cmpBack (p4final s p) (p - 1) ((p - 1 : Nat) : Int)
        ((262144 + 0 + (p - 1) : Nat) : Int) = true := by
      apply cmpBack_of_eq
      intro k hk
      have h1 : ((p - 1 : Nat) : Int) - 1 - k = ((p - 2 - k : Nat) : Int) := by omega
      have h2 : ((262144 + 0 + (p - 1) : Nat) : Int) - 1 - k
          = ((262144 + (p - 2 - k) : Nat) : Int) := by omega
      rw [h1, h2, p4final_read8_hay s p (p - 2 - k) (by omega) hn,
        p4final_read8_char s p (p - 2 - k) (by omega) hn]
    rw [hcmp, if_pos rfl]
    exact matchesLeftStep_p4 s p hn _

theorem matchesStep_p4final (s : List Nat) (p : Nat) (hp : 1 ≤ p) (hplt : p < s.length)
    (hn : s.length ≤ 510) (hp255 : p ≤ 255) (fuel : Nat)
    (R : Nat → Nat → Option (Option MRes)) :
    matchesStep (p4final s p) 262144 p fuel s.length R 517 s.length =
      some (some (0, s.length, -1)) := by
  unfold matchesStep
  simp only []
  rw [show (517 : Nat) + CELL_AND = 517 from rfl, p4final_rootand s p hn]
  rw [show (520 : Nat) + BCELL_EXTRA = 522 from rfl, p4final_b1extra s p hn]
  rw [if_pos (by decide : (0 : Nat) ≤ BCELL_EXTRA_MAX)]
  rw [if_neg (by decide : ¬((0 : Nat) ≠ 0))]
  dsimp only
  rw [show (520 : Nat) + BCELL_ALT_AND = 521 from rfl, p4final_b1alt s p hn]
  rw [if_pos (by decide : (523 : Nat) ≠ 0)]
  rw [matchesLeftGo_p4 s p hp hplt hn hp255 fuel]

theorem matches_p4final (s : List Nat) (p : Nat) (hp : 1 ≤ p) (hplt : p < s.length)
    (hn : s.length ≤ 510) (hp255 : p ≤ 255) (hrlen : s.length - p ≤ 255) (fuel : Nat) :
    matchesFn (p4final s p) (fuel + 1) 517 p = some (some (0, s.length, -1)) := by
  unfold matchesFn
  rw [CHAR0_SLOT_eq, p4final_char0 s p hn, p4final_haystackLen]
  simp only [matchesGo]
  rw [p4final_read8_hay s p p hplt hn]
  have hv : read32 (p4final s p) 519 = (s.length - p) * 2 ^ 24 + p := by
    rw [p4final_rootseg s p hn, toSegmentInfo_eq 0 p s.length (by omega) (by omega),
      Nat.zero_add]
  have hfind : matchesFind (p4final s p) 262144 (some (s.getD p 0 % 256)) (fuel + 1) 517
      = some (some (517, (s.length - p) * 2 ^ 24 + p)) := by
    simp only [matchesFind]
    rw [show (517 : Nat) + SEGMENT_INFO = 519 from rfl, hv]
    rw [segLow _ _ (by omega : p < 2 ^ 24)]
    rw [p4final_read8_char s p p hplt hn]
    rw [if_pos rfl]
  rw [hfind]
  dsimp only
  rw [segLow _ _ (by omega : p < 2 ^ 24), segHigh _ _ (by omega : p < 2 ^ 24)]
  by_cases h1 : s.length - p - 1 = 0
  · rw [if_neg (by omega)]
    rw [show p + 1 = s.length by omega]
    exact matchesStep_p4final s p hp hplt hn hp255 fuel _
  · rw [if_pos h1]
    rw [show p + 1 + (s.length - p - 1) = s.length by omega]
    rw [if_neg (by omega : ¬(s.length > s.length))]
    have hcmp : cmpFwd (p4final s p) (s.length - p - 1) (p + 1) (262144 + p + 1) = true := by
      apply cmpFwd_of_eq
      intro k hk
      rw [show (262144 : Nat) + p + 1 + k = 262144 + (p + 1 + k) by omega,
        p4final_read8_hay s p (p + 1 + k) (by omega) hn,
        p4final_read8_char s p (p + 1 + k) (by omega) hn]
    rw [hcmp, if_pos rfl]
    exact matchesStep_p4final s p hp hplt hn hp255 fuel _

theorem matches_p4final0 (s : List Nat) (h0 : 0 < s.length) (hn : s.length ≤ 510)
    (h255 : s.length ≤ 255) (fuel : Nat) :
    matchesFn (p4final0 s) (fuel + 1) 517 0 = some (some (0, s.length, -1)) := by
  unfold matchesFn
  rw [CHAR0_SLOT_eq, p4final0_char0 s hn, p4final0_haystackLen]
  simp only [matchesGo]
  rw [p4final0_read8_hay s 0 h0 hn]
  have hv : read32 (p4final0 s) 519 = s.length * 2 ^ 24 + 0 := by
    rw [p4final0_rootseg s hn, toSegmentInfo_eq 0 0 s.length (by omega) (by decide)]
    omega
  have hfind : matchesFind (p4final0 s) 262144 (some (s.getD 0 0 % 256)) (fuel + 1) 517
      = some (some (517, s.length * 2 ^ 24 + 0)) := by
    simp only [matchesFind]
    rw [show (517 : Nat) + SEGMENT_INFO = 519 from rfl, hv]
    rw [segLow _ _ (by decide : (0 : Nat) < 2 ^ 24)]
    rw [p4final0_read8_char s 0 h0 hn]
    rw [if_pos rfl]
  rw [hfind]
  dsimp only
  rw [segLow _ _ (by decide : (0 : Nat) < 2 ^ 24),
    segHigh _ _ (by decide : (0 : Nat) < 2 ^ 24)]
  by_cases h1 : s.length - 1 = 0
  · rw [if_neg (by omega)]
    rw [show (0 : Nat) + 1 = s.length by omega]
    exact matchesStep_p4final0 s hn fuel _
  · rw [if_pos h1]
    rw [show (0 : Nat) + 1 + (s.length - 1) = s.length by omega]
    rw [if_neg (by omega : ¬(s.length > s.length))]
    have hcmp : cmpFwd (p4final0 s) (s.length - 1) (0 + 1) (262144 + 0 + 1) = true := by
      apply cmpFwd_of_eq
      intro k hk
      rw [show (0 : Nat) + 1 + k = 1 + k by omega,
        show (262144 : Nat) + 0 + 1 + k = 262144 + (1 + k) by omega,
        p4final0_read8_hay s (1 + k) (by omega) hn,
        p4final0_read8_char s (1 + k) (by omega) hn]
    rw [hcmp, if_pos rfl]
    exact matchesStep_p4final0 s hn fuel _

/-- C4: the claim fails as stated (see the counterexample: add alone leaves
extra 0 and matches returns false); amended, it holds once the returned
boundary cell is marked terminal: for every pattern (l, r) with nonempty
right side and both sides at most 255 bytes, inserted into a fresh
container with pivot |l| and marked with extra 1, matching the haystack
l ++ r at position |l| succeeds for every fuel, returning the full span
(l = 0, r = |l| + |r|) and the always-match marker iu = -1. -/
theorem c4_pivot_match_with_extra (l r : List Nat) (hr : r ≠ [])
    (hl255 : l.length ≤ 255) (hr255 : r.length ≤ 255) (fuel : Nat) :
    matchesFn (p4S l r) (fuel + 1) (p4trie l r).1 l.length =
      some (some (0, l.length + r.length, -1)) := by
  have hrpos : 0 < r.length := List.length_pos.mpr hr
  have hn : (l ++ r).length ≤ 510 := by rw [List.length_append]; omega
  rw [show (p4trie l r).1 = 517 by rw [p4trie_eq l r hn]]
  rcases eq_or_ne l [] with hl | hl
  · subst hl
    rw [p4S_eq_zero r (by simpa using hn) hr]
    simp only [List.length_nil, Nat.zero_add]
    exact matches_p4final0 r hrpos (by omega) (by omega) fuel
  · rw [p4S_eq_pos l r hn hl]
    have hlpos : 0 < l.length := List.length_pos.mpr hl
    rw [matches_p4final (l ++ r) l.length hlpos (by rw [List.length_append]; omega)
      hn hl255 (by rw [List.length_append]; omega) fuel, List.length_append]

/-- C4 witness: the pattern (a, b) inserted with pivot 1 and marked with
extra 1 matches the haystack ab at position 1. -/
theorem c4_pivot_match_witness :
    ([98] : List Nat) ≠ [] ∧ ([97] : List Nat).length ≤ 255 ∧
    ([98] : List Nat).length ≤ 255 ∧
    matchesFn (p4S [97] [98]) 1 (p4trie [97] [98]).1 1 = some (some (0, 2, -1)) :=
  ⟨by decide, by decide, by decide, by
    have h := c4_pivot_match_with_extra [97] [98] (by decide) (by decide) (by decide) 0
    simpa using h⟩

/-! ### C6: the discriminator invariant -/

/-! Counterexample scenario: the one-byte pattern a is inserted with
pivot = n = 1 (an empty right side).  add writes toSegmentInfo(aL0, 1, 1),
whose packed length r - l is 0, into the root segment cell, so that
normal cell ends up with word 2 = aL0 + 1 ≤ BCELL_EXTRA_MAX. -/

def c6store : Nat × Cont := storeString (init 0 0 zeroHandler) [97]

def c6trie : Nat × Cont := createOne c6store.2

def c6add : Nat × Cont := (add c6trie.2 100 c6trie.1 c6store.1 1 1).getD (0, c6trie.2)

/-- C6 counterexample: after add(iroot, aL0, 1, 1) on a fresh root, the root
cell - a normal cell, which received a packed segment descriptor, not a
boundary write - holds SEGMENT_INFO = 1 ≤ BCELL_EXTRA_MAX with packed
length 0: the discriminator invariant fails for an add whose pivot equals
the pattern length. -/
theorem c6_zero_length_segment :
    c6add.1 ≠ 0 ∧
    read32 c6add.2 (c6trie.1 + SEGMENT_INFO) ≠ 0 ∧
    read32 c6add.2 (c6trie.1 + SEGMENT_INFO) ≤ BCELL_EXTRA_MAX ∧
    read32 c6add.2 (c6trie.1 + SEGMENT_INFO) >>> 24 = 0 := by decide

/-- C6 amended: for an insert with a nonempty right side (pivot < n) into a
fresh container, every cell the insert creates satisfies the discriminator:
the root segment cell and (for a nonzero pivot) the left-trie segment cell
have SEGMENT_INFO > BCELL_EXTRA_MAX because their packed lengths are ≥ 1,
and the boundary cells keep word 2 at 0 or the extra value 1, both
≤ BCELL_EXTRA_MAX. -/
theorem c6_discriminator_single_insert (l r : List Nat) (hr : r ≠ [])
    (hl255 : l.length ≤ 255) (hr255 : r.length ≤ 255) :
    read32 (p4S l r) (517 + SEGMENT_INFO) > BCELL_EXTRA_MAX ∧
    read32 (p4S l r) (520 + SEGMENT_INFO) ≤ BCELL_EXTRA_MAX ∧
    (l ≠ [] → read32 (p4S l r) (523 + SEGMENT_INFO) > BCELL_EXTRA_MAX ∧
      read32 (p4S l r) (526 + SEGMENT_INFO) ≤ BCELL_EXTRA_MAX) := by
  have hrpos : 0 < r.length := List.length_pos.mpr hr
  have hn : (l ++ r).length ≤ 510 := by rw [List.length_append]; omega
  have h24 : (2 : Nat) ^ 24 = 16777216 := by norm_num
  rw [show (517 : Nat) + SEGMENT_INFO = 519 from rfl,
    show (520 : Nat) + SEGMENT_INFO = 522 from rfl,
    show (523 : Nat) + SEGMENT_INFO = 525 from rfl,
    show (526 : Nat) + SEGMENT_INFO = 528 from rfl, BCELL_EXTRA_MAX_eq]
  rcases eq_or_ne l [] with hl | hl
  · subst hl
    rw [p4S_eq_zero r (by simpa using hn) hr]
    refine ⟨?_, ?_, fun h => absurd rfl h⟩
    · rw [p4final0_rootseg r (by simpa using hn),
        toSegmentInfo_eq 0 0 r.length (by omega) (by decide)]
      omega
    · rw [p4final0_b1extra r (by simpa using hn)]
      omega
  · rw [p4S_eq_pos l r hn hl]
    have hlpos : 0 < l.length := List.length_pos.mpr hl
    refine ⟨?_, ?_, fun _ => ⟨?_, ?_⟩⟩
    · rw [p4final_rootseg (l ++ r) l.length hn,
        toSegmentInfo_eq 0 l.length (l ++ r).length
          (by rw [List.length_append]; omega) (by omega), List.length_append]
      omega
    · rw [p4final_b1extra (l ++ r) l.length hn]
      omega
    · rw [p4final_leftseg (l ++ r) l.length hn,
        toSegmentInfo_eq 0 0 l.length (by omega) (by decide)]
      omega
    · rw [p4final_b2extra (l ++ r) l.length hn]
      omega

/-- C6 witness: the discriminator facts hold for the pattern (a, b). -/
theorem c6_discriminator_witness :
    ([98] : List Nat) ≠ [] ∧ ([97] : List Nat).length ≤ 255 ∧
    ([98] : List Nat).length ≤ 255 ∧
    (read32 (p4S [97] [98]) (517 + SEGMENT_INFO) > BCELL_EXTRA_MAX ∧
     read32 (p4S [97] [98]) (520 + SEGMENT_INFO) ≤ BCELL_EXTRA_MAX ∧
     (([97] : List Nat) ≠ [] → read32 (p4S [97] [98]) (523 + SEGMENT_INFO) > BCELL_EXTRA_MAX ∧
       read32 (p4S [97] [98]) (526 + SEGMENT_INFO) ≤ BCELL_EXTRA_MAX)) :=
  ⟨by decide, by decide, by decide,
    c6_discriminator_single_insert [97] [98] (by decide) (by decide) (by decide)⟩

/-! ### C3: iterating the single-insert trie -/

theorem p4b1_or518 (s : List Nat) (p : Nat) : read32 (p4b1 s p) 518 = 0 := by
  unfold p4b1
  rw [read32_write32_ne _ _ _ _ (by decide), read32_write32_ne _ _ _ _ (by decide),
    allocateCell_eq (p4seg s p) 2080 (p4seg_trie1 s p)]
  show read32 (write32 (write32 (write32 (write32 (p4seg s p) TRIE1_SLOT
    (2080 + CELL_BYTE_LENGTH)) (2080 / 4) 0) (2080 / 4 + 1) 0) (2080 / 4 + 2) 0) 518 = 0
  rw [show (2080 : Nat) / 4 + 2 = 522 from rfl, read32_write32_ne _ _ _ _ (by decide),
    show (2080 : Nat) / 4 + 1 = 521 from rfl, read32_write32_ne _ _ _ _ (by decide),
    show (2080 : Nat) / 4 = 520 from rfl, read32_write32_ne _ _ _ _ (by decide),
    read32_write32_ne _ _ _ _ (by decide)]
  unfold p4seg
  rw [read32_write32_ne _ _ _ _ (by decide)]
  unfold p4root
  rw [read32_write32_ne _ _ _ _ (by decide), read32_write32_ne _ _ _ _ (by decide),
    read32_write32_self _ _ _ (by rw [write32_size, p4chars_size]; decide)]
  decide

theorem p4b1_next520 (s : List Nat) (p : Nat) : read32 (p4b1 s p) 520 = 0 := by
  unfold p4b1
  rw [read32_write32_self _ _ _ (by rw [write32_size, alloc1_size]; decide)]
  decide

theorem p4fin_to_p4b1_iter (s : List Nat) (p j : Nat) (hj : j = 518 ∨ j = 520) :
    read32 (p4fin s p) j = read32 (p4b1 s p) j := by
  unfold p4fin
  rw [read32_write32_ne _ _ _ _ (by omega),
    allocateCell_eq (p4mid s p) 2104 (p4mid_trie1 s p)]
  show read32 (write32 (write32 (write32 (write32 (p4mid s p) TRIE1_SLOT
    (2104 + CELL_BYTE_LENGTH)) (2104 / 4) 0) (2104 / 4 + 1) 0) (2104 / 4 + 2) 0) j = _
  rw [show (2104 : Nat) / 4 + 2 = 528 from rfl, show (2104 : Nat) / 4 + 1 = 527 from rfl,
    show (2104 : Nat) / 4 = 526 from rfl, TRIE1_SLOT_eq]
  rw [read32_write32_ne _ _ _ _ (by omega), read32_write32_ne _ _ _ _ (by omega),
    read32_write32_ne _ _ _ _ (by omega), read32_write32_ne _ _ _ _ (by omega)]
  unfold p4mid
  rw [read32_write32_ne _ _ _ _ (by omega)]
  unfold p4left
  rw [read32_write32_ne _ _ _ _ (by omega),
    allocateCell_eq (p4b1 s p) 2092 (p4b1_trie1 s p)]
  show read32 (write32 (write32 (write32 (write32 (p4b1 s p) TRIE1_SLOT
    (2092 + CELL_BYTE_LENGTH)) (2092 / 4) 0) (2092 / 4 + 1) 0) (2092 / 4 + 2) 0) j = _
  rw [show (2092 : Nat) / 4 + 2 = 525 from rfl, show (2092 : Nat) / 4 + 1 = 524 from rfl,
    show (2092 : Nat) / 4 = 523 from rfl, TRIE1_SLOT_eq]
  rw [read32_write32_ne _ _ _ _ (by omega), read32_write32_ne _ _ _ _ (by omega),
    read32_write32_ne _ _ _ _ (by omega), read32_write32_ne _ _ _ _ (by omega)]

theorem p4final_or518 (s : List Nat) (p : Nat) (hn : s.length ≤ 510) :
    read32 (p4final s p) 518 = 0 := by
  rw [p4final_read32_cell s p 518 hn (by decide) (by decide),
    p4fin_to_p4b1_iter s p 518 (Or.inl rfl), p4b1_or518]

theorem p4final_next520 (s : List Nat) (p : Nat) (hn : s.length ≤ 510) :
    read32 (p4final s p) 520 = 0 := by
  rw [p4final_read32_cell s p 520 hn (by decide) (by decide),
    p4fin_to_p4b1_iter s p 520 (Or.inr rfl), p4b1_next520]

theorem p4final0_or518 (s : List Nat) (hn : s.length ≤ 510) :
    read32 (p4final0 s) 518 = 0 := by
  rw [p4final0_read32_cell s 518 hn (by decide) (by decide), p4b1_or518]

theorem p4final0_next520 (s : List Nat) (hn : s.length ≤ 510) :
    read32 (p4final0 s) 520 = 0 := by
  rw [p4final0_read32_cell s 520 hn (by decide) (by decide), p4b1_next520]

theorem p4final0_alt521 (s : List Nat) (hn : s.length ≤ 510) :
    read32 (p4final0 s) 521 = 0 := by
  rw [p4final0_read32_cell s 521 hn (by decide) (by decide), p4b1_alt]

/-- The scratch buffer and write pointer after one copySeg call. -/
theorem copySeg_spec (st : Cont) (m : Nat) :
    ∀ (cb : Nat → Nat) (cp i0 : Nat),
      (copySeg st m cb cp i0).2 = cp + m ∧
      ∀ q, (copySeg st m cb cp i0).1 q =
        if cp ≤ q ∧ q < cp + m ∧ q < 256 then
          (read8 st ((i0 + (q - cp) : Nat) : Int)).getD 0
        else cb q := by
  induction m with
  | zero =>
    intro cb cp i0
    exact ⟨rfl, fun q => by
      show cb q = _
      rw [if_neg (by omega)]⟩
  | succ m ih =>
    intro cb cp i0
    have key : copySeg st (m + 1) cb cp i0
        = copySeg st m (fun q => if cp < 256 ∧ q = cp then
            (read8 st ((i0 : Nat) : Int)).getD 0 else cb q) (cp + 1) (i0 + 1) := rfl
    rw [key]
    obtain ⟨h2, h1⟩ := ih (fun q => if cp < 256 ∧ q = cp then
      (read8 st ((i0 : Nat) : Int)).getD 0 else cb q) (cp + 1) (i0 + 1)
    refine ⟨by rw [h2]; omega, fun q => ?_⟩
    rw [h1 q]
    by_cases hq : cp + 1 ≤ q ∧ q < cp + 1 + m ∧ q < 256
    · rw [if_pos hq, if_pos (by omega)]
      rw [show i0 + 1 + (q - (cp + 1)) = i0 + (q - cp) by omega]
    · rw [if_neg hq]
      by_cases hq2 : cp ≤ q ∧ q < cp + (m + 1) ∧ q < 256
      · rw [if_pos (by omega : cp < 256 ∧ q = cp), if_pos hq2]
        rw [show q - cp = 0 by omega, Nat.add_zero]
      · rw [if_neg (by omega : ¬(cp < 256 ∧ q = cp)), if_neg hq2]

theorem patOf_eq_of (cb : Nat → Nat) (m : Nat) (hm : m ≤ 255) (g : Nat → Nat)
    (h : ∀ q, q < m → cb q = g q) :
    patOf cb m = (List.range m).map g := by
  unfold patOf
  rw [Nat.min_eq_left (by omega)]
  exact List.map_congr_left (fun a ha => h a (List.mem_range.mp ha))

theorem range_map_getD (r : List Nat) :
    (List.range r.length).map (fun k => r.getD k 0) = r := by
  apply List.ext_getElem (by simp)
  intro i h1 h2
  simp only [List.getElem_map, List.getElem_range]
  exact List.getD_eq_getElem _ _ h2

theorem iterNext_done (st : Cont) (c f : Nat) (cb : Nat → Nat) (cp : Nat) :
    iterNext st c f ⟨0, cb, cp, []⟩ = some (none, ⟨0, cb, cp, []⟩) := rfl

theorem iterLoop_p4final (s : List Nat) (p : Nat) (hp : 1 ≤ p) (hplt : p < s.length)
    (hn : s.length ≤ 510) (hp255 : p ≤ 255) (hrlen : s.length - p ≤ 255) (fuel : Nat) :
    iterLoop (p4final s p) 262144 (fuel + 1) 517 (fun _ => 0) 0 [] =
      some (some ((List.range (s.length - p)).map (fun q => s.getD (p + q) 0 % 256)),
        ⟨0, (copySeg (p4final s p) (s.length - p) (fun _ => 0) 0 (262144 + p)).1,
          s.length - p, []⟩) := by
  have hv : read32 (p4final s p) 519 = (s.length - p) * 2 ^ 24 + p := by
    rw [p4final_rootseg s p hn, toSegmentInfo_eq 0 p s.length (by omega) (by omega),
      Nat.zero_add]
  simp only [iterLoop]
  rw [show (517 : Nat) + CELL_OR = 518 from rfl, p4final_or518 s p hn]
  rw [if_neg (by decide : ¬((0 : Nat) ≠ 0))]
  rw [show (517 : Nat) + SEGMENT_INFO = 519 from rfl, hv]
  rw [segLow _ _ (by omega : p < 2 ^ 24), segHigh _ _ (by omega : p < 2 ^ 24)]
  rw [show (517 : Nat) + CELL_AND = 517 from rfl, p4final_rootand s p hn]
  rw [if_neg (by decide : ¬((520 : Nat) = 0))]
  rw [show (520 : Nat) + SEGMENT_INFO = 522 from rfl, p4final_b1extra s p hn]
  rw [if_pos rfl]
  rw [show (520 : Nat) + CELL_AND = 520 from rfl, p4final_next520 s p hn]
  obtain ⟨hcp, hcb⟩ := copySeg_spec (p4final s p) (s.length - p) (fun _ => 0) 0 (262144 + p)
  rw [hcp, Nat.zero_add]
  rw [patOf_eq_of _ _ (by omega) (fun q => s.getD (p + q) 0 % 256) (fun q hq => by
    rw [hcb q, if_pos (by omega)]
    rw [show 262144 + p + (q - 0) = 262144 + (p + q) by omega]
    rw [p4final_read8_char s p (p + q) (by omega) hn]
    rfl)]

theorem iterLoop_p4final0 (s : List Nat) (h0 : 0 < s.length) (hn : s.length ≤ 510)
    (h255 : s.length ≤ 255) (fuel : Nat) :
    iterLoop (p4final0 s) 262144 (fuel + 1 + 1) 517 (fun _ => 0) 0 [] =
      some (some ((List.range s.length).map (fun q => s.getD q 0 % 256)),
        ⟨0, (copySeg (p4final0 s) s.length (fun _ => 0) 0 (262144 + 0)).1,
          s.length, []⟩) := by
  have hv : read32 (p4final0 s) 519 = s.length * 2 ^ 24 + 0 := by
    rw [p4final0_rootseg s hn, toSegmentInfo_eq 0 0 s.length (by omega) (by decide)]
    omega
  simp only [iterLoop]
  rw [show (517 : Nat) + CELL_OR = 518 from rfl, p4final0_or518 s hn]
  rw [if_neg (by decide : ¬((0 : Nat) ≠ 0))]
  rw [show (517 : Nat) + SEGMENT_INFO = 519 from rfl, hv]
  rw [segLow _ _ (by decide : (0 : Nat) < 2 ^ 24), segHigh _ _ (by decide : (0 : Nat) < 2 ^ 24)]
  rw [show (517 : Nat) + CELL_AND = 517 from rfl, p4final0_rootand s hn]
  rw [if_neg (by decide : ¬((520 : Nat) = 0))]
  rw [show (520 : Nat) + SEGMENT_INFO = 522 from rfl, p4final0_b1extra s hn]
  rw [if_neg (by decide : ¬((1 : Nat) = 0))]
  rw [show (520 : Nat) + CELL_OR = 521 from rfl, p4final0_alt521 s hn]
  rw [if_neg (by decide : ¬((0 : Nat) ≠ 0))]
  rw [show (1 : Nat) >>> 24 = 0 from rfl, show (1 : Nat) &&& 16777215 = 1 from rfl]
  simp only [copySeg]
  rw [show (520 : Nat) + CELL_AND = 520 from rfl, p4final0_next520 s hn]
  rw [if_pos rfl]
  obtain ⟨hcp, hcb⟩ := copySeg_spec (p4final0 s) s.length (fun _ => 0) 0 (262144 + 0)
  rw [hcp, Nat.zero_add]
  rw [patOf_eq_of _ _ (by omega) (fun q => s.getD q 0 % 256) (fun q hq => by
    rw [hcb q, if_pos (by omega)]
    rw [show 262144 + 0 + (q - 0) = 262144 + q by omega]
    rw [p4final0_read8_char s q (by omega) hn]
    rfl)]

theorem iterate_p4final (s : List Nat) (p : Nat) (hp : 1 ≤ p) (hplt : p < s.length)
    (hn : s.length ≤ 510) (hp255 : p ≤ 255) (hrlen : s.length - p ≤ 255) (fuel : Nat) :
    iterate (p4final s p) (fuel + 2) 517 =
      some [(List.range (s.length - p)).map (fun q => s.getD (p + q) 0 % 256)] := by
  unfold iterate
  rw [CHAR0_SLOT_eq, p4final_char0 s p hn]
  rw [show fuel + 2 = fuel + 1 + 1 from rfl]
  simp only [iterAll]
  rw [show iterNext (p4final s p) 262144 (fuel + 1 + 1) ⟨517, fun _ => 0, 0, []⟩
      = iterLoop (p4final s p) 262144 (fuel + 1 + 1) 517 (fun _ => 0) 0 [] from rfl]
  rw [iterLoop_p4final s p hp hplt hn hp255 hrlen (fuel + 1)]
  dsimp only
  rw [iterNext_done]
  rfl

theorem iterate_p4final0 (s : List Nat) (h0 : 0 < s.length) (hn : s.length ≤ 510)
    (h255 : s.length ≤ 255) (fuel : Nat) :
    iterate (p4final0 s) (fuel + 2) 517 =
      some [(List.range s.length).map (fun q => s.getD q 0 % 256)] := by
  unfold iterate
  rw [CHAR0_SLOT_eq, p4final0_char0 s hn]
  rw [show fuel + 2 = fuel + 1 + 1 from rfl]
  simp only [iterAll]
  rw [show iterNext (p4final0 s) 262144 (fuel + 1 + 1) ⟨517, fun _ => 0, 0, []⟩
      = iterLoop (p4final0 s) 262144 (fuel + 1 + 1) 517 (fun _ => 0) 0 [] from rfl]
  rw [iterLoop_p4final0 s h0 hn h255 fuel]
  dsimp only
  rw [iterNext_done]
  rfl

/-- C3: duplicates collapse (see the counterexample), but a single insert
is faithfully enumerated: after inserting one pattern (l, r) of byte values
with pivot |l| into a fresh container, iterating the handle yields exactly
the right side r, once. -/
theorem c3_single_insert_iterates_right (l r : List Nat) (hr : r ≠ [])
    (hl255 : l.length ≤ 255) (hr255 : r.length ≤ 255)
    (hbytes : ∀ b ∈ r, b < 256) (fuel : Nat) :
    iterate (p4S l r) (fuel + 2) (p4trie l r).1 = some [r] := by
  have hrpos : 0 < r.length := List.length_pos.mpr hr
  have hn : (l ++ r).length ≤ 510 := by rw [List.length_append]; omega
  rw [show (p4trie l r).1 = 517 by rw [p4trie_eq l r hn]]
  have hmr : (List.range r.length).map (fun q => r.getD q 0 % 256) = r := by
    have hcg : ∀ a ∈ List.range r.length,
        r.getD a 0 % 256 = r.getD a 0 := by
      intro a ha
      have halt : a < r.length := List.mem_range.mp ha
      have hb : r.getD a 0 < 256 := by
        rw [List.getD_eq_getElem _ _ halt]
        exact hbytes _ (List.getElem_mem halt)
      exact Nat.mod_eq_of_lt hb
    rw [List.map_congr_left hcg, range_map_getD]
  rcases eq_or_ne l [] with hl | hl
  · subst hl
    rw [p4S_eq_zero r (by simpa using hn) hr]
    rw [iterate_p4final0 r hrpos (by omega) (by omega) fuel]
    rw [show (List.range r.length).map (fun q => r.getD q 0 % 256) = r from hmr]
  · rw [p4S_eq_pos l r hn hl]
    have hlpos : 0 < l.length := List.length_pos.mpr hl
    rw [iterate_p4final (l ++ r) l.length hlpos (by rw [List.length_append]; omega)
      hn hl255 (by rw [List.length_append]; omega) fuel]
    rw [show (l ++ r).length - l.length = r.length by rw [List.length_append]; omega]
    have hcg2 : ∀ a ∈ List.range r.length,
        (l ++ r).getD (l.length + a) 0 % 256 = r.getD a 0 % 256 := by
      intro a _
      rw [List.getD_append_right l r 0 (l.length + a) (by omega),
        show l.length + a - l.length = a by omega]
    rw [List.map_congr_left hcg2, hmr]

/-- C3 witness: iterating after the single insert of (a, b) yields exactly
the right side b. -/
theorem c3_single_insert_witness :
    ([98] : List Nat) ≠ [] ∧ ([97] : List Nat).length ≤ 255 ∧
    ([98] : List Nat).length ≤ 255 ∧ (∀ b ∈ ([98] : List Nat), b < 256) ∧
    iterate (p4S [97] [98]) 2 (p4trie [97] [98]).1 = some [[98]] :=
  ⟨by decide, by decide, by decide, by decide, by
    have h := c3_single_insert_iterates_right [97] [98] (by decide) (by decide)
      (by decide) (by decide) 0
    simpa using h⟩

/-! ### C1: no false positives -/

/-- Spec-model predicate, following the specification text: pattern
(lft, rgt) occurs at haystack position i of the valid content H when
H[i - len lft .. i] equals lft and H[i .. i + len rgt] equals rgt. -/
def specOccurs (H lft rgt : List Nat) (i : Nat) : Prop :=
  lft.length ≤ i ∧ i + rgt.length ≤ H.length ∧
  (∀ k, k < lft.length → H.getD (i - lft.length + k) 0 = lft.getD k 0) ∧
  (∀ k, k < rgt.length → H.getD (i + k) 0 = rgt.getD k 0)

instance (H lft rgt : List Nat) (i : Nat) : Decidable (specOccurs H lft rgt i) := by
  unfold specOccurs; infer_instance

/-! The C1 scenario: the one-byte pattern c is stored and marked terminal;
the haystack window first receives the byte c, then the empty haystack is
handed off (haystackLen 0), so the set of patterns is P = {([], [99])} and
the valid haystack content is H = []. -/

def c1store : Nat × Cont := storeString (init 0 0 zeroHandler) [99]

def c1trie : Nat × Cont := createOne c1store.2

def c1add : Nat × Cont := (add c1trie.2 100 c1trie.1 c1store.1 1 0).getD (0, c1trie.2)

def c1state : Cont := setHaystack (setHaystack (setExtra c1add.2 c1add.1 1) [99]) []

/-- C1: the claimed equivalence fails in the code: with the single stored
pattern ([], c) and the empty haystack H = [] (haystackLen 0), no stored
pattern occurs anywhere in H, yet matches(iroot, 0) returns true - the
unguarded first-byte segment read accepts the stale window byte - so
matches(root, i) = true is not equivalent to a stored pattern occurring at
i in the valid haystack. -/
theorem c1_false_positive :
    c1state.haystackLen = 0 ∧
    matchesFn c1state 100 c1trie.1 0 = some (some (0, 1, -1)) ∧
    ¬ specOccurs [] [] [99] 0 := by decide

end STrie
